import Mathlib

/-!
Shallow embedding of the GeminiProxy broker core (backend/app/core and
backend/app/api/v1beta) in Lean 4.

Python dicts are modelled as insertion-ordered association lists
(`List (String × V)`): assignment keeps the position of an existing key and
appends a new key, matching CPython dict semantics.  Timestamps are `Int`
(seconds); `datetime.now` becomes an explicit `now` parameter.  Library
calls (hashlib, base64, mimetypes, zipfile, random.choice, the websocket
round trips) are uninterpreted function parameters supplied by each theorem.
-/

set_option maxHeartbeats 2000000

namespace GeminiProxy

/-- Lookup in an insertion-ordered association list (Python `d.get(k)`). -/
def alookup {V : Type} : List (String × V) → String → Option V
  | [], _ => none
  | (k, v) :: rest, key => if k = key then some v else alookup rest key

/-- Assignment `d[k] = v`: replace in place, else append (CPython dict order). -/
def aset {V : Type} : List (String × V) → String → V → List (String × V)
  | [], key, v => [(key, v)]
  | (k, w) :: rest, key, v =>
    if k = key then (key, v) :: rest else (k, w) :: aset rest key v

/-- Removal `d.pop(k, None)`. -/
def aremove {V : Type} : List (String × V) → String → List (String × V)
  | [], _ => []
  | (k, v) :: rest, key =>
    if k = key then aremove rest key else (k, v) :: aremove rest key

/-- Keys of an association list, in order. -/
def akeys {V : Type} (l : List (String × V)) : List String := l.map Prod.fst

/-- Number of bindings for a key (used to state the one-blob-per-digest law). -/
def countKey {V : Type} : List (String × V) → String → Nat
  | [], _ => 0
  | (k, _) :: rest, key => (if k = key then 1 else 0) + countKey rest key

/-- ASCII lowering of one character (the inputs handled here are ASCII). -/
def strLowerChar (c : Char) : Char :=
  if 'A' ≤ c && c ≤ 'Z' then Char.ofNat (c.toNat + 32) else c

/-- Python `s.lower()` (structural; kernel-reducible, unlike String.toLower). -/
def strToLower (s : String) : String := String.mk (s.data.map strLowerChar)

/-- The whitespace set of Python `str.strip()`. -/
def wsChars : List Char := [' ', '\t', '\n', '\r', Char.ofNat 11, Char.ofNat 12]

/-- Python `s.strip()`. -/
def strTrim (s : String) : String :=
  String.mk
    (((s.data.dropWhile (fun c => wsChars.contains c)).reverse.dropWhile
        (fun c => wsChars.contains c)).reverse)

/-- Python `s[:n]`. -/
def strTakeN (s : String) (n : Nat) : String := String.mk (s.data.take n)

/-- Python `s[n:]`. -/
def strDropN (s : String) (n : Nat) : String := String.mk (s.data.drop n)

/-- Python `s.startswith(p)`. -/
def strStartsWith (s p : String) : Bool := p.data.isPrefixOf s.data

/-- Everything after the first occurrence of `sub` (none when absent). -/
def occursAux (sub : List Char) : List Char → Option (List Char)
  | [] => if sub.isEmpty then some [] else none
  | a :: t =>
    if sub.isPrefixOf (a :: t) then some ((a :: t).drop sub.length)
    else occursAux sub t

/-- Python `sub in s`. -/
def containsSubstr (s sub : String) : Bool := (occursAux sub.data s.data).isSome

/-- Python `s.split(sub, 1)[-1]`: the suffix after the first occurrence of
`sub`, or the whole string when `sub` does not occur. -/
def afterFirst (s sub : String) : String :=
  match occursAux sub.data s.data with
  | some r => String.mk r
  | none => s

/-- Python `s[s.index(sub):]`: the suffix starting at the first occurrence. -/
def fromFirst (s sub : String) : String := sub ++ afterFirst s sub

/-- Python `s.split("/")[-1]`. -/
def lastSegmentAux : List Char → List Char → List Char
  | [], cur => cur
  | c :: t, cur => if c = '/' then lastSegmentAux t [] else lastSegmentAux t (cur ++ [c])

/-- Python `s.split("/")[-1]`. -/
def lastSegment (s : String) : String := String.mk (lastSegmentAux s.data [])

/-- Membership in Python `string.hexdigits`. -/
def isHexDigitChar (c : Char) : Bool :=
  c.isDigit || (Char.ofNat 97 ≤ c && c ≤ Char.ofNat 102) ||
    (Char.ofNat 65 ≤ c && c ≤ Char.ofNat 70)

/-- The 64-lowercase-or-uppercase-hex test used for bare digests. -/
def isHex64 (s : String) : Bool :=
  (s.length == 64) && s.toList.all isHexDigitChar

/-- Python truthiness filter for optional strings (empty string is falsy). -/
def strTruthy : Option String → Option String
  | some s => if s = "" then none else some s
  | none => none

/-- Cloud file descriptor as returned by an executor (a JSON object in the
source).  `otherRequiredPresent` abstracts the presence of the remaining
fields the pydantic `File` model requires (createTime, updateTime, state,
source). -/
structure GeminiFile where
  name : Option String := none
  displayName : Option String := none
  uri : Option String := none
  mimeType : Option String := none
  sizeBytes : Option Nat := none
  sha256Hash : Option String := none
  expirationTime : Option Int := none
  downloadUri : Option String := none
  otherRequiredPresent : Bool := true
deriving Repr, DecidableEq

/-- Whether `File.model_validate` on this descriptor succeeds: the pydantic
model requires name, mimeType, sizeBytes, sha256Hash, uri, downloadUri,
createTime, updateTime, state and source. -/
def validFile (f : GeminiFile) : Bool :=
  f.name.isSome && f.mimeType.isSome && f.sizeBytes.isSome && f.sha256Hash.isSome &&
    f.uri.isSome && f.downloadUri.isSome && f.otherRequiredPresent

/-- One value of `entry.replication_map`: `{"status": ...}` merged with the
fields of a cloud descriptor (`replication_data.update(gemini_file)`). -/
structure ReplicationData where
  status : String
  file : Option GeminiFile := none
deriving Repr, DecidableEq

/-- replication_data.get("name"). -/
def rdName (d : ReplicationData) : Option String :=
  match d.file with
  | some f => f.name
  | none => none

/-- replication_data.get("uri"). -/
def rdUri (d : ReplicationData) : Option String :=
  match d.file with
  | some f => f.uri
  | none => none

/-- file_manager.FileCacheEntry. -/
structure FileCacheEntry where
  sha256 : String
  local_path : String
  original_filename : String
  mime_type : Option String
  size_bytes : Nat
  created_at : Int := 0
  last_accessed_at : Int := 0
  gemini_file_expiration : Option Int := none
  replication_map : List (String × ReplicationData) := []
deriving Repr, DecidableEq

/-- file_manager.ChunkUploadState; `hashed` is the byte sequence fed so far
to the running sha256 object. -/
structure ChunkUploadState where
  temp_path : String
  hashed : List Nat := []
  size_bytes : Nat := 0
deriving Repr, DecidableEq

/-- Declared metadata of an upload session (numeric strings pre-parsed). -/
structure SessionMeta where
  display_name : Option String := none
  mime_type : Option String := none
  size_bytes : Option Nat := none
deriving Repr, DecidableEq

/-- One value of file_manager.upload_sessions (the dict form written by
files.create). -/
structure UploadSession where
  metadata : SessionMeta
  created_at : Int := 0
deriving Repr, DecidableEq

/-- The whole FileManager state plus the blob store (`disk` maps an absolute
path to the byte content of the file at that path). -/
structure FMState where
  metadata_store : List (String × FileCacheEntry) := []
  reverse_mapping : List (String × String) := []
  deleted_shas : List String := []
  deleted_alias_map : List (String × String) := []
  chunk_upload_states : List (String × ChunkUploadState) := []
  upload_sessions : List (String × UploadSession) := []
  disk : List (String × List Nat) := []
deriving Repr, DecidableEq

/-- settings.FILE_CACHE_DIR resolved. -/
def cacheDir : String := "cache"

/-- FileManager._get_cache_path: two-level shard on the first four hex chars;
raises ValueError (modelled as none) when the digest has fewer than 4 chars. -/
def get_cache_path (sha : String) : Option String :=
  if sha.length < 4 then none
  else some (cacheDir ++ "/" ++ strTakeN sha 2 ++ "/" ++ strTakeN (strDropN sha 2) 2 ++ "/" ++ sha ++ ".bin")

/-- The sharded digest path produced by _get_cache_path for a digest of at
least 4 characters. -/
def cachePathFull (sha : String) : String :=
  cacheDir ++ "/" ++ strTakeN sha 2 ++ "/" ++ strTakeN (strDropN sha 2) 2 ++ "/" ++ sha ++ ".bin"

/-- Staging path used by save_stream_to_cache. -/
def tempPath (filename : String) : String := cacheDir ++ "/temp_" ++ filename

/-- Staging path used by the chunked-upload pipeline. -/
def chunkPath (sessionId : String) : String := cacheDir ++ "/chunk_" ++ sessionId

/-- FileManager._register_aliases. -/
def register_aliases (rm : List (String × String)) (sha : String)
    (aliases : List String) : List (String × String) :=
  aliases.foldl
    (fun acc a =>
      if a = "" then acc
      else
        let n := strTrim a
        if n = "" then acc
        else
          let acc := aset acc n sha
          if containsSubstr n "/" then
            let tail := lastSegment n
            if tail ≠ "" ∧ tail ≠ n then aset acc tail sha else acc
          else acc)
    rm

/-- FileManager._remove_aliases. -/
def remove_aliases (rm : List (String × String)) (aliases : List String) :
    List (String × String) :=
  aliases.foldl
    (fun acc a =>
      if a = "" then acc
      else
        let n := strTrim a
        if n = "" then acc
        else
          let acc := aremove acc n
          if containsSubstr n "/" then
            let tail := lastSegment n
            if tail ≠ "" ∧ tail ≠ n then aremove acc tail else acc
          else acc)
    rm

/-- FileManager.get_metadata_entry: returns the entry and bumps its
last-accessed timestamp. -/
def get_metadata_entry (st : FMState) (sha : String) (now : Int) :
    Option FileCacheEntry × FMState :=
  match alookup st.metadata_store sha with
  | none => (none, st)
  | some e =>
    let e2 := { e with last_accessed_at := now }
    (some e2, { st with metadata_store := aset st.metadata_store sha e2 })

/-- Result of scanning one replication map for a remote name or uri tail
(used by the get_sha256_by_filename fallback): the aliases to register. -/
def scanReplicationValues (cands : List String) :
    List (String × ReplicationData) → Option (List String)
  | [] => none
  | (_, d) :: rest =>
    match strTruthy (rdName d) with
    | some n =>
      if cands.contains n then some [n]
      else
        match strTruthy (rdUri d) with
        | some u =>
          if containsSubstr u "files/" then
            let uriTail := afterFirst u "files/"
            if uriTail ≠ "" ∧ cands.contains uriTail then some [u, uriTail]
            else scanReplicationValues cands rest
          else scanReplicationValues cands rest
        | none => scanReplicationValues cands rest
    | none =>
      match strTruthy (rdUri d) with
      | some u =>
        if containsSubstr u "files/" then
          let uriTail := afterFirst u "files/"
          if uriTail ≠ "" ∧ cands.contains uriTail then some [u, uriTail]
          else scanReplicationValues cands rest
        else scanReplicationValues cands rest
      | none => scanReplicationValues cands rest

/-- The back-scan over metadata_store at the end of get_sha256_by_filename. -/
def backScan (cands : List String) :
    List (String × FileCacheEntry) → Option (String × List String)
  | [] => none
  | (sha, e) :: rest =>
    match scanReplicationValues cands e.replication_map with
    | some aliases => some (sha, aliases)
    | none => backScan cands rest

/-- FileManager.get_sha256_by_filename.  The back-scan opportunistically
registers the aliases it discovered, so the state is returned too. -/
def get_sha256_by_filename (st : FMState) (file_name : String) :
    Option String × FMState :=
  if file_name = "" then (none, st)
  else
    match alookup st.reverse_mapping file_name with
    | some sha => (some sha, st)
    | none =>
      match
        (if containsSubstr file_name "files/" then
          alookup st.reverse_mapping (fromFirst file_name "files/")
        else none) with
      | some sha => (some sha, st)
      | none =>
        if isHex64 (lastSegment file_name) ∧
            (alookup st.metadata_store (lastSegment file_name)).isSome then
          (some (lastSegment file_name), st)
        else
          match
            backScan
              (if containsSubstr (strTrim file_name) "files/" then
                [strTrim file_name, afterFirst (strTrim file_name) "files/"]
              else
                [strTrim file_name, "files/" ++ strTrim file_name])
              st.metadata_store with
          | some (sha, aliases) =>
            (some sha,
              { st with reverse_mapping := register_aliases st.reverse_mapping sha aliases })
          | none => (none, st)

/-- FileManager.create_metadata_entry. -/
def create_metadata_entry (st : FMState) (sha file_path filename : String)
    (mime_type : Option String) (size_bytes : Nat) (now : Int) :
    FileCacheEntry × FMState :=
  let e : FileCacheEntry :=
    { sha256 := sha, local_path := file_path, original_filename := filename,
      mime_type := mime_type, size_bytes := size_bytes,
      created_at := now, last_accessed_at := now }
  let shortSha := strTakeN sha 32
  (e,
    { st with
      metadata_store := aset st.metadata_store sha e
      reverse_mapping :=
        register_aliases st.reverse_mapping sha
          [sha, shortSha, "files/" ++ sha, "files/" ++ shortSha] })

/-- FileManager.update_replication_status.  A missing digest is a no-op. -/
def update_replication_status (st : FMState) (sha client status : String)
    (gemini_file : Option GeminiFile) (now : Int) : FMState :=
  match get_metadata_entry st sha now with
  | (none, st1) => st1
  | (some e, st1) =>
    match gemini_file with
    | none =>
      let e2 := { e with replication_map := aset e.replication_map client { status := status } }
      { st1 with metadata_store := aset st1.metadata_store sha e2 }
    | some g =>
      let d : ReplicationData := { status := status, file := some g }
      let rm2 :=
        match g.name with
        | some n => register_aliases st1.reverse_mapping sha [n]
        | none => st1.reverse_mapping
      let newExp :=
        if e.gemini_file_expiration.isNone then g.expirationTime
        else e.gemini_file_expiration
      let e2 :=
        { e with replication_map := aset e.replication_map client d,
                 gemini_file_expiration := newExp }
      { st1 with metadata_store := aset st1.metadata_store sha e2,
                 reverse_mapping := rm2 }

/-- FileManager.reset_replication_map: drops every remote name from the
reverse mapping (a plain `pop`, without tail handling), clears the map and
the recorded expiration.  A missing digest is a no-op. -/
def reset_replication_map (st : FMState) (sha : String) (now : Int) : FMState :=
  match get_metadata_entry st sha now with
  | (none, st1) => st1
  | (some e, st1) =>
    let rm2 :=
      e.replication_map.foldl
        (fun acc p =>
          match rdName p.2 with
          | some n => aremove acc n
          | none => acc)
        st1.reverse_mapping
    let e2 := { e with replication_map := [], gemini_file_expiration := none }
    { st1 with metadata_store := aset st1.metadata_store sha e2,
               reverse_mapping := rm2 }

/-- FileManager._delete_entry: pops the entry, removes its canonical aliases
and every replication-map remote name, and unlinks the blob. -/
def delete_entry (st : FMState) (sha : String) : FMState :=
  match alookup st.metadata_store sha with
  | none => st
  | some e =>
    let shortSha := strTakeN sha 32
    let rm1 :=
      remove_aliases st.reverse_mapping
        [sha, shortSha, "files/" ++ sha, "files/" ++ shortSha]
    let rm2 :=
      e.replication_map.foldl
        (fun acc p =>
          match rdName p.2 with
          | some n => remove_aliases acc [n]
          | none => acc)
        rm1
    { st with
      metadata_store := aremove st.metadata_store sha,
      reverse_mapping := rm2,
      disk := aremove st.disk e.local_path }

/-- FileManager._normalize_aliases_for_tombstone. -/
def normalize_aliases_for_tombstone (alias0 : String) : List String :=
  let token := strTrim alias0
  if token = "" then []
  else if containsSubstr token "files/" then
    let tail := afterFirst token "files/"
    if tail ≠ "" ∧ tail ≠ token then
      [token, strTrim tail, strTrim ("files/" ++ tail)].filter (fun s => s ≠ "")
    else [token]
  else [token, strTrim ("files/" ++ token)].filter (fun s => s ≠ "")

/-- FileManager.mark_deleted: record a digest (and alias forms) as
explicitly deleted. -/
def mark_deleted (st : FMState) (sha : String) (aliases : List String) : FMState :=
  if sha = "" then st
  else
    let tomb :=
      normalize_aliases_for_tombstone sha ++
        normalize_aliases_for_tombstone ("files/" ++ sha) ++
        (aliases.map normalize_aliases_for_tombstone).flatten
    { st with
      deleted_shas := if st.deleted_shas.contains sha then st.deleted_shas
                      else st.deleted_shas ++ [sha],
      deleted_alias_map := tomb.foldl (fun acc a => aset acc a sha) st.deleted_alias_map }

/-- FileManager.is_marked_deleted. -/
def is_marked_deleted (st : FMState) (sha : String) : Bool :=
  sha ≠ "" && st.deleted_shas.contains sha

/-- FileManager.extract_sha256_hex restricted to the first candidate field;
`b64ToHex` stands for the base64.b64decode-then-hex library fallback. -/
def extract_sha256_hex (b64ToHex : String → Option String)
    (shaHashField : Option String) : Option String :=
  match strTruthy (shaHashField.map strTrim) with
  | none => none
  | some cand =>
    if (cand.length == 64) && cand.toList.all isHexDigitChar then
      some (strToLower cand)
    else b64ToHex cand

/-- FileManager.ensure_remote_entry: create a placeholder entry for a remote
descriptor the broker did not originate.  No aliases are registered. -/
def ensure_remote_entry (b64ToHex : String → Option String) (st : FMState)
    (remote : GeminiFile) (now : Int) : Option String × FMState :=
  match extract_sha256_hex b64ToHex remote.sha256Hash with
  | none => (none, st)
  | some sha =>
    match alookup st.metadata_store sha with
    | some _ => (some sha, st)
    | none =>
      let placeholder := cacheDir ++ "/remote_stub/" ++ sha ++ ".bin"
      let displayName :=
        match strTruthy remote.displayName with
        | some d => some d
        | none => strTruthy remote.name
      let e : FileCacheEntry :=
        { sha256 := sha, local_path := placeholder,
          original_filename := displayName.getD sha,
          mime_type := remote.mimeType,
          size_bytes := remote.sizeBytes.getD 0,
          created_at := now, last_accessed_at := now,
          gemini_file_expiration := remote.expirationTime }
      (some sha, { st with metadata_store := aset st.metadata_store sha e })

/-- FileManager._create_chunk_state: unlink a stale staging file and insert a
fresh state for the session. -/
def create_chunk_state (st : FMState) (sessionId : String) :
    ChunkUploadState × FMState :=
  let temp := chunkPath sessionId
  let state : ChunkUploadState := { temp_path := temp }
  (state,
    { st with
      disk := aremove st.disk temp,
      chunk_upload_states := aset st.chunk_upload_states sessionId state })

/-- FileManager.append_chunk_data; `.error` is the ValueError raised on an
offset mismatch. -/
def append_chunk_data (st : FMState) (sessionId : String) (data : List Nat)
    (expected_offset : Nat) : FMState × Except String Nat :=
  let (state, st1) :=
    match alookup st.chunk_upload_states sessionId with
    | some s => (s, st)
    | none => create_chunk_state st sessionId
  if state.size_bytes ≠ expected_offset then
    (st1, .error "Offset mismatch")
  else
    let oldBytes := (alookup st1.disk state.temp_path).getD []
    let state2 :=
      { state with hashed := state.hashed ++ data,
                   size_bytes := state.size_bytes + data.length }
    ({ st1 with
        disk := aset st1.disk state.temp_path (oldBytes ++ data),
        chunk_upload_states := aset st1.chunk_upload_states sessionId state2 },
      .ok state2.size_bytes)

/-- FileManager.finalize_chunk_upload; `hash` is the hex digest function of
hashlib.sha256. -/
def finalize_chunk_upload (hash : List Nat → String) (st : FMState)
    (sessionId : String) : FMState × Except String (String × String × Nat) :=
  match alookup st.chunk_upload_states sessionId with
  | none => (st, .error "Chunk upload state not found")
  | some state =>
    let st1 := { st with chunk_upload_states := aremove st.chunk_upload_states sessionId }
    let sha := hash state.hashed
    match get_cache_path sha with
    | none => (st1, .error "sha256 hash must be at least 4 characters long")
    | some finalPath =>
      let bytes := (alookup st1.disk state.temp_path).getD []
      (({ st1 with disk := aset (aremove st1.disk state.temp_path) finalPath bytes }),
        .ok (sha, finalPath, state.size_bytes))

/-- FileManager.discard_chunk_upload. -/
def discard_chunk_upload (st : FMState) (sessionId : String) : FMState :=
  match alookup st.chunk_upload_states sessionId with
  | none => st
  | some state =>
    { st with
      chunk_upload_states := aremove st.chunk_upload_states sessionId,
      disk := aremove st.disk state.temp_path }

/-- Outcome of one chunked PUT on /files/upload/{session} before the shared
cached-file processing takes over. -/
inductive ChunkPutResult where
  | sessionNotFound
  | offsetMismatch
  | resume (newOffset : Nat)
  | sizeMismatch
  | finalized (sha path : String) (size : Nat)
deriving Repr, DecidableEq

/-- The chunked branch of files.resumable_upload: an offset-mismatch
ValueError discards both the chunk state and the upload session and maps to
HTTP 400; a non-final PUT answers 308 with the new offset; a final PUT
finalizes into the digest path and enforces the declared size. -/
def resumable_upload_chunked (hash : List Nat → String) (st : FMState)
    (sessionId : String) (data : List Nat) (offset : Nat) (finalize : Bool) :
    ChunkPutResult × FMState :=
  match alookup st.upload_sessions sessionId with
  | none => (.sessionNotFound, st)
  | some session =>
    match append_chunk_data st sessionId data offset with
    | (st1, .error _) =>
      let st2 := discard_chunk_upload st1 sessionId
      let st3 := { st2 with upload_sessions := aremove st2.upload_sessions sessionId }
      (.offsetMismatch, st3)
    | (st1, .ok newOffset) =>
      if ¬ finalize then (.resume newOffset, st1)
      else
        match finalize_chunk_upload hash st1 sessionId with
        | (st2, .error _) =>
          (.sizeMismatch,
            { st2 with upload_sessions := aremove st2.upload_sessions sessionId })
        | (st2, .ok (sha, path, size)) =>
          match session.metadata.size_bytes with
          | some declared =>
            if declared ≠ size then
              (.sizeMismatch,
                { st2 with
                  disk := aremove st2.disk path,
                  upload_sessions := aremove st2.upload_sessions sessionId })
            else (.finalized sha path size, st2)
          | none => (.finalized sha path size, st2)

/-- The bytes currently written for a chunk session (0 when no state). -/
def currentChunkSize (st : FMState) (sessionId : String) : Nat :=
  match alookup st.chunk_upload_states sessionId with
  | some s => s.size_bytes
  | none => 0

/-- The bytes fed so far to the running digest of a chunk session. -/
def chunkHashed (st : FMState) (sessionId : String) : List Nat :=
  match alookup st.chunk_upload_states sessionId with
  | some s => s.hashed
  | none => []

/-- The declared sizeBytes of an upload session. -/
def sessionDeclaredSize (st : FMState) (sessionId : String) : Option Nat :=
  match alookup st.upload_sessions sessionId with
  | some s => s.metadata.size_bytes
  | none => none

/-- ConnectionManager registry state: live websocket keys in connection
order, the insertion-ordered round-robin list and its cursor. -/
structure RegistryState where
  active_connections : List String := []
  client_ids : List String := []
  next_index : Nat := 0
deriving Repr, DecidableEq

/-- Python exceptions that cross the claim boundaries. -/
inductive PyExc where
  | apiException (status_code : Nat) (message : String) (is_resettable : Bool)
  | httpException (status_code : Nat) (message : String)
  | indexError
  | validationError
deriving Repr, DecidableEq

/-- ConnectionManager.connect (after websocket accept). -/
def rconnect (st : RegistryState) (client : String) : RegistryState :=
  { st with
    active_connections :=
      if st.active_connections.contains client then st.active_connections
      else st.active_connections ++ [client],
    client_ids := st.client_ids ++ [client] }

/-- ConnectionManager.disconnect restricted to the registry fields (the
request cleanup loop does not touch them). -/
def rdisconnect (st : RegistryState) (client : String) : RegistryState :=
  { st with
    active_connections := st.active_connections.erase client,
    client_ids :=
      if st.client_ids.contains client then st.client_ids.erase client
      else st.client_ids }

/-- ConnectionManager.get_next_client: 503 on an empty list, otherwise an
unguarded list index followed by a modular cursor bump.  A cursor left out
of range by a disconnect raises IndexError. -/
def get_next_client (st : RegistryState) : Except PyExc (String × RegistryState) :=
  if st.client_ids.isEmpty then
    .error (.httpException 503 "No frontend clients connected")
  else
    match st.client_ids.get? st.next_index with
    | none => .error .indexError
    | some client =>
      .ok (client, { st with next_index := (st.next_index + 1) % st.client_ids.length })

/-- One step of the TTL pass (set-add of an expired digest). -/
def ttlStep (now : Int) (acc : List String) (p : String × FileCacheEntry) :
    List String :=
  match p.2.gemini_file_expiration with
  | some exp => if now > exp ∧ ¬ acc.contains p.1 then acc ++ [p.1] else acc
  | none => acc

/-- TTL pass of FileManager.periodic_cleanup_task: digests whose recorded
cloud expiration is strictly in the past. -/
def ttl_marks (store : List (String × FileCacheEntry)) (now : Int) : List String :=
  store.foldl (ttlStep now) []

/-- Whether the cloud expiration of an entry is strictly past. -/
def isExpiredAt (e : FileCacheEntry) (now : Int) : Bool :=
  match e.gemini_file_expiration with
  | some exp => now > exp
  | none => false

/-- Stable insertion by last-accessed timestamp (Python sorted is stable). -/
def insertByAccess (e : FileCacheEntry) : List FileCacheEntry → List FileCacheEntry
  | [] => [e]
  | x :: xs =>
    if x.last_accessed_at ≤ e.last_accessed_at then x :: insertByAccess e xs
    else e :: x :: xs

/-- sorted(entries, key=last_accessed_at). -/
def sortByAccess : List FileCacheEntry → List FileCacheEntry
  | [] => []
  | x :: xs => insertByAccess x (sortByAccess xs)

/-- The LRU loop: marks oldest-accessed unmarked entries while the running
total still exceeds the quota (the check runs before each mark). -/
def lru_loop (quota : Nat) : List FileCacheEntry → Nat → List String → List String
  | [], _, marks => marks
  | e :: rest, total, marks =>
    if total ≤ quota then marks
    else lru_loop quota rest (total - e.size_bytes) (marks ++ [e.sha256])

/-- Total size of the entries not yet marked. -/
def unmarkedTotal (store : List (String × FileCacheEntry)) (marks : List String) : Nat :=
  ((store.filter (fun p => ¬ marks.contains p.1)).map (fun p => p.2.size_bytes)).sum

/-- The full mark set of one sweep: TTL marks, then the LRU extension when
the unmarked total exceeds the quota. -/
def computeToDelete (store : List (String × FileCacheEntry)) (now : Int)
    (quota : Nat) : List String :=
  if unmarkedTotal store (ttl_marks store now) > quota then
    lru_loop quota
      (sortByAccess
        ((store.filter (fun p => ¬ (ttl_marks store now).contains p.1)).map Prod.snd))
      (unmarkedTotal store (ttl_marks store now)) (ttl_marks store now)
  else ttl_marks store now

/-- One iteration of FileManager.periodic_cleanup_task after its sleep:
mark by TTL, extend by LRU, drop upload sessions (the session data written
by files.create is a dict, so the isinstance-tuple check always fails and
every session is treated as legacy and dropped), then destroy every marked
entry. -/
def periodic_cleanup_once (st : FMState) (now : Int) (quotaMB : Nat) : FMState :=
  let toDelete := computeToDelete st.metadata_store now (quotaMB * 1024 * 1024)
  let st1 := { st with upload_sessions := [] }
  toDelete.foldl (fun s sha => delete_entry s sha) st1

/-- MimeUtils.EXTENSION_MIME_MAP. -/
def extensionMimeMap : List (String × String) :=
  [(".jpg", "image/jpeg"), (".jpeg", "image/jpeg"), (".png", "image/png"),
   (".gif", "image/gif"), (".webp", "image/webp"), (".bmp", "image/bmp"),
   (".svg", "image/svg+xml"),
   (".pdf", "application/pdf"), (".doc", "application/msword"),
   (".docx", "application/vnd.openxmlformats-officedocument.wordprocessingml.document"),
   (".xls", "application/vnd.ms-excel"),
   (".xlsx", "application/vnd.openxmlformats-officedocument.spreadsheetml.sheet"),
   (".ppt", "application/vnd.ms-powerpoint"),
   (".pptx", "application/vnd.openxmlformats-officedocument.presentationml.presentation"),
   (".txt", "text/plain"), (".rtf", "application/rtf"),
   (".mp3", "audio/mpeg"), (".wav", "audio/wav"), (".ogg", "audio/ogg"),
   (".m4a", "audio/mp4"), (".flac", "audio/flac"),
   (".mp4", "video/mp4"), (".avi", "video/x-msvideo"), (".mov", "video/quicktime"),
   (".wmv", "video/x-ms-wmv"), (".flv", "video/x-flv"), (".webm", "video/webm"),
   (".mkv", "video/x-matroska"),
   (".js", "text/javascript"), (".css", "text/css"), (".html", "text/html"),
   (".htm", "text/html"), (".json", "application/json"), (".xml", "text/xml"),
   (".csv", "text/csv"), (".md", "text/markdown"), (".py", "text/x-python"),
   (".java", "text/x-java-source"), (".cpp", "text/x-c++src"), (".c", "text/x-csrc"),
   (".zip", "application/zip"), (".rar", "application/x-rar-compressed"),
   (".tar", "application/x-tar"), (".gz", "application/gzip"),
   (".7z", "application/x-7z-compressed")]

/-- MimeUtils.MAGIC_SIGNATURES (signature bytes and mime; the extension
column is unused by content detection). -/
def magicSignatures : List (List Nat × String) :=
  [([0x25, 0x50, 0x44, 0x46, 0x2d], "application/pdf"),
   ([0x89, 0x50, 0x4e, 0x47, 0x0d, 0x0a, 0x1a, 0x0a], "image/png"),
   ([0xff, 0xd8, 0xff], "image/jpeg"),
   ([0x47, 0x49, 0x46, 0x38, 0x37, 0x61], "image/gif"),
   ([0x47, 0x49, 0x46, 0x38, 0x39, 0x61], "image/gif"),
   ([0x50, 0x4b, 0x03, 0x04], "application/zip"),
   ([0x50, 0x4b, 0x05, 0x06], "application/zip"),
   ([0x50, 0x4b, 0x07, 0x08], "application/zip"),
   ([0x1f, 0x8b, 0x08], "application/gzip"),
   ([0x52, 0x61, 0x72, 0x21, 0x1a, 0x07, 0x00], "application/x-rar-compressed"),
   ([0x37, 0x7a, 0xbc, 0xaf, 0x27, 0x1c], "application/x-7z-compressed"),
   ([0x4f, 0x67, 0x67, 0x53], "application/ogg"),
   ([0x49, 0x44, 0x33], "audio/mpeg"),
   ([0x00, 0x00, 0x00, 0x18, 0x66, 0x74, 0x79, 0x70], "video/mp4"),
   ([0x1a, 0x45, 0xdf, 0xa3], "video/webm")]

/-- os.path.splitext on the basename, lowered by the caller: the extension
starting at the last dot, ignoring leading dots. -/
def extOf (filename : String) : String :=
  let base := lastSegment filename
  let cs := base.toList
  let lead := (cs.takeWhile (fun c => c = Char.ofNat 46)).length
  let rest := cs.drop lead
  if rest.contains (Char.ofNat 46) then
    "." ++ String.mk ((rest.reverse.takeWhile (fun c => c ≠ Char.ofNat 46)).reverse)
  else ""

/-- MimeUtils.infer_mime_type; `mimetypesGuess` stands for the
mimetypes.guess_type library call. -/
def infer_mime_type (mimetypesGuess : String → Option String) (filename : String)
    (fallback : String := "application/octet-stream") : String :=
  if filename = "" then fallback
  else
    let ext := extOf (strToLower filename)
    match alookup extensionMimeMap ext with
    | some m => m
    | none =>
      match mimetypesGuess filename with
      | some m => m
      | none => fallback

/-- MimeUtils._looks_like_text: printable-or-common-whitespace bytes on more
than 90 percent of the sample (the float comparison nontext/len < 0.1 is the
rational 10*nontext < len). -/
def looks_like_text (sample : List Nat) : Bool :=
  if sample.isEmpty then false
  else
    let isTextByte := fun (b : Nat) =>
      b ∈ ([7, 8, 9, 10, 12, 13, 27] : List Nat) || (32 ≤ b && b ≤ 126)
    let nontext := (sample.filter (fun b => ¬ isTextByte b)).length
    nontext * 10 < sample.length

/-- MimeUtils._detect_office_type; `zipNamelist` is the zipfile library
result (none for an unreadable or non-zip file). -/
def detect_office_type (zipNamelist : Option (List String)) : Option String :=
  match zipNamelist with
  | none => none
  | some names =>
    if names.any (fun n => strStartsWith n "word/") then
      some "application/vnd.openxmlformats-officedocument.wordprocessingml.document"
    else if names.any (fun n => strStartsWith n "ppt/") then
      some "application/vnd.openxmlformats-officedocument.presentationml.presentation"
    else if names.any (fun n => strStartsWith n "xl/") then
      some "application/vnd.openxmlformats-officedocument.spreadsheetml.sheet"
    else some "application/zip"

/-- First matching magic signature. -/
def findSignature (sample : List Nat) : List (List Nat × String) → Option String
  | [] => none
  | (sig, mime) :: rest =>
    if sig.isPrefixOf sample then some mime else findSignature sample rest

/-- MimeUtils.detect_mime_type_from_content over the first 8192 bytes. -/
def detect_mime_type_from_content (content : List Nat)
    (zipNamelist : Option (List String)) : Option String :=
  if (content.take 8192).isEmpty then none
  else
    match findSignature (content.take 8192) magicSignatures with
    | some mime =>
      if mime = "application/zip" then
        match detect_office_type zipNamelist with
        | some office => some office
        | none => some "application/zip"
      else some mime
    | none =>
      if looks_like_text (content.take 8192) then some "text/plain" else none

/-- MimeUtils.guess_extension_from_mime; `mimetypesExt` stands for
mimetypes.guess_extension. -/
def guess_extension_from_mime (mimetypesExt : String → Option String)
    (mime : Option String) (dflt : String := ".bin") : String :=
  match mime with
  | none => dflt
  | some m =>
    match (extensionMimeMap.find? (fun p => p.2 = m)).map Prod.fst with
    | some ext => ext
    | none =>
      match mimetypesExt m with
      | some g => g
      | none =>
        match alookup
          [("text/plain", ".txt"), ("application/json", ".json"),
           ("application/xml", ".xml"), ("application/octet-stream", ".bin")] m with
        | some f => f
        | none => dflt

/-- MimeUtils.normalize_filename: basename, trimmed, none when empty. -/
def normalize_filename : Option String → Option String
  | none => none
  | some f =>
    if f = "" then none
    else
      let cleaned := strTrim (lastSegment (String.mk ((f.data.reverse.dropWhile (fun c => c = Char.ofNat 47)).reverse)))
      if cleaned = "" then none else some cleaned

/-- MimeUtils.build_fallback_filename. -/
def build_fallback_filename (mimetypesExt : String → Option String)
    (sha : String) (mime : Option String) : String :=
  let shortSha := strTakeN (if sha = "" then "file" else sha) 8
  "file_" ++ shortSha ++ guess_extension_from_mime mimetypesExt mime ".bin"

/-- The mime candidate taken from the Content-Type header in
_process_cached_file_upload: first semicolon field, trimmed and lowered,
nulled when it is application/octet-stream. -/
def header_mime_of (contentTypeHint : Option String) : Option String :=
  match contentTypeHint with
  | none => none
  | some ct =>
    if ct = "" then none
    else
      let h := strToLower (strTrim (String.mk (ct.data.takeWhile (fun c => c ≠ ';'))))
      if h = "application/octet-stream" then none else some h

/-- The declared-metadata mime candidate (trimmed and lowered). -/
def metadata_mime_of (meta : SessionMeta) : Option String :=
  meta.mime_type.map (fun m => strToLower (strTrim m))

/-- Python next((mime for mime in candidates if mime), default): the first
non-null non-empty candidate. -/
def firstTruthy (dflt : String) : List (Option String) → String
  | [] => dflt
  | c :: rest =>
    match strTruthy c with
    | some s => s
    | none => firstTruthy dflt rest

/-- The filename chosen by _process_cached_file_upload before the mime
candidates are evaluated. -/
def chooseUploadFilename (filenameHint : Option String) (meta : SessionMeta) :
    Option String :=
  let normalizedHint := normalize_filename filenameHint
  let metadataFilename := normalize_filename meta.display_name
  let validNames :=
    ([normalizedHint, metadataFilename].filterMap id).filter
      (fun n => n ≠ "" ∧ ¬ (["untitled", "unknown", "unknown_file"].contains (strToLower n)))
  validNames.head?

/-- The mime recorded on a new cache entry by _process_cached_file_upload:
header Content-Type first, then declared metadata mime, then magic-byte
sniffing, then extension inference, else octet-stream. -/
def selectUploadMime (mimetypesGuess : String → Option String)
    (meta : SessionMeta) (contentTypeHint : Option String) (content : List Nat)
    (zipNamelist : Option (List String)) (finalFilename : Option String) : String :=
  let headerMime := header_mime_of contentTypeHint
  let metadataMime := metadata_mime_of meta
  let detectedMime := detect_mime_type_from_content content zipNamelist
  let inferredMime := finalFilename.map (fun f => infer_mime_type mimetypesGuess f)
  firstTruthy "application/octet-stream"
    [headerMime, metadataMime, detectedMime, inferredMime]

/-- files.delete_file: resolve the name, dispatch fire-and-forget remote
delete tasks for every synced replica, drop the local entry, and answer 200
in every case.  Returns the HTTP status, the dispatched (client, remote
name) tasks and the new state. -/
def delete_file (st : FMState) (name : String) (now : Int) :
    Nat × List (String × String) × FMState :=
  match get_sha256_by_filename st name with
  | (none, st1) => (200, [], st1)
  | (some sha, st1) =>
    match get_metadata_entry st1 sha now with
    | (none, st2) => (200, [], st2)
    | (some e, st2) =>
      (200,
        e.replication_map.foldl
          (fun acc p =>
            if p.2.status = "synced" then
              match rdName p.2 with
              | some n => acc ++ [(p.1, n)]
              | none => acc
            else acc)
          [],
        delete_entry st2 sha)

/-- The replication-map scan of files.get_file: the first synced value whose
remote name equals the queried name and which passes File validation. -/
def findSyncedNamedValid (name : String) :
    List (String × ReplicationData) → Option GeminiFile
  | [] => none
  | (_, d) :: rest =>
    if rdName d = some name ∧ d.status = "synced" then
      match d.file with
      | some f => if validFile f then some f else findSyncedNamedValid name rest
      | none => findSyncedNamedValid name rest
    else findSyncedNamedValid name rest

/-- Shared remote-descriptor handling of files.get_file: create a stub entry
for the descriptor, mark it synced on the answering client and validate it
into the response. -/
def getFileRemoteHit (b64ToHex : String → Option String) (st : FMState)
    (rf : GeminiFile) (client : String) (now : Int) :
    Except PyExc GeminiFile × FMState :=
  let (rshaOpt, st1) := ensure_remote_entry b64ToHex st rf now
  let st2 :=
    match rshaOpt with
    | some rsha => update_replication_status st1 rsha client "synced" (some rf) now
    | none => st1
  (if validFile rf then .ok rf else .error .validationError, st2)

/-- The miss branch of files.get_file (no resolvable digest or no live
entry): answer from the remote descriptor or 404. -/
def getFileMiss (b64ToHex : String → Option String) (st : FMState)
    (remote : Option (GeminiFile × String)) (now : Int) :
    Except PyExc GeminiFile × FMState :=
  match remote with
  | some (rf, client) => getFileRemoteHit b64ToHex st rf client now
  | none => (.error (.httpException 404 "File not found."), st)

/-- files.get_file.  `remote` is the executor answer of
fetch_remote_file_metadata (none when no executor answers or the fetch
fails); the same answer is used at each of its call sites. -/
def get_file (b64ToHex : String → Option String) (st : FMState) (name : String)
    (verifyRemote : Bool) (remote : Option (GeminiFile × String)) (now : Int) :
    Except PyExc GeminiFile × FMState :=
  match get_sha256_by_filename st name with
  | (none, st1) => getFileMiss b64ToHex st1 remote now
  | (some sha, st1) =>
    match get_metadata_entry st1 sha now with
    | (none, st2) => getFileMiss b64ToHex st2 remote now
    | (some entry, st2) =>
      match (if verifyRemote then remote else none) with
      | some (rf, client) =>
        (if validFile rf then .ok rf else .error .validationError,
          update_replication_status st2 sha client "synced" (some rf) now)
      | none =>
        match findSyncedNamedValid name entry.replication_map with
        | some f => (.ok f, st2)
        | none =>
          match remote with
          | some (rf, client) => getFileRemoteHit b64ToHex st2 rf client now
          | none => (.error (.httpException 404 "File not found."), st2)

/-- The ApiException branch of
ConnectionManager._handle_non_streaming_request: on a "not found" executor
error with a resolvable top-level payload fileName, the replication map is
reset and is_resettable is set on the caught ApiException object; the
statement that follows raises a fresh HTTPException built from its code and
detail, so the raised exception never carries the flag. -/
def handle_non_streaming_api_error (st : FMState) (payloadFileName : Option String)
    (errCode : Nat) (errMessage : String) (now : Int) : FMState × PyExc :=
  if containsSubstr (strToLower errMessage) "not found" ||
      containsSubstr (strToLower errMessage) "file not found" then
    match strTruthy payloadFileName with
    | some fn =>
      let (shaOpt, st1) := get_sha256_by_filename st fn
      match shaOpt with
      | some sha => (reset_replication_map st1 sha now, .httpException errCode errMessage)
      | none => (st1, .httpException errCode errMessage)
    | none => (st, .httpException errCode errMessage)
  else (st, .httpException errCode errMessage)

/-- Python hasattr(e, "is_resettable") and getattr(e, "is_resettable",
False): only an ApiException object on which the flag was set satisfies it. -/
def has_resettable_flag : PyExc → Bool
  | .apiException _ _ r => r
  | _ => false

/-- Whether ConnectionManager.handle_api_request enters its one-shot
rebuild-and-retry branch or re-raises to the caller. -/
inductive RetryDecision where
  | retried
  | raisedToCaller (e : PyExc)
deriving Repr, DecidableEq

/-- The except-branch of ConnectionManager.handle_api_request around
proxy_request: the rebuild-retry runs only when the propagated exception
carries is_resettable and the logged original file name resolves. -/
def handle_api_request_error_decision (st : FMState) (exc : PyExc)
    (originalFileName : Option String) : RetryDecision :=
  if has_resettable_flag exc then
    match originalFileName with
    | some fn =>
      match (get_sha256_by_filename st fn).1 with
      | some _ => .retried
      | none => .raisedToCaller exc
    | none => .raisedToCaller exc
  else .raisedToCaller exc

/-- Executor-side effects of the replication protocol.  uploadViaClient is
the combined result of the initiate-resumable-upload and upload-chunk round
trips for a digest on a client (none for any failure along the way);
verifyRemote is the files.get check on a remote name through a client. -/
structure UploadEnv where
  uploadViaClient : String → String → Option GeminiFile
  verifyRemote : String → String → Option GeminiFile

/-- Library parameters of the upload path: mimetypes.guess_type,
mimetypes.guess_extension, hex-to-base64 encoding, and the zipfile namelist
of the uploaded content. -/
structure MimeEnv where
  mimetypesGuess : String → Option String
  mimetypesExt : String → Option String
  hexToB64 : String → Option String
  zipNamelist : Option (List String)

/-- FileManager.save_stream_to_cache: stream into a staging path, digest on
the fly, move into the sharded digest path, always dropping the staging
file. -/
def save_stream_to_cache (hash : List Nat → String) (st : FMState)
    (content : List Nat) (filename : String) :
    FMState × Except String (String × String × Nat) :=
  let temp := tempPath filename
  let st1 := { st with disk := aset st.disk temp content }
  let sha := hash content
  match get_cache_path sha with
  | none =>
    ({ st1 with disk := aremove st1.disk temp }, .error "sha256 hash too short")
  | some finalPath =>
    ({ st1 with disk := aset (aremove st1.disk temp) finalPath content },
      .ok (sha, finalPath, content.length))

/-- ConnectionManager._upload_file_via_client: mark pending, read the blob,
run the two-step upload, then mark synced with the returned descriptor (or
failed on any error). -/
def upload_file_via_client (env : UploadEnv) (st : FMState) (sha client : String)
    (now : Int) : FMState × Except PyExc GeminiFile :=
  match get_metadata_entry st sha now with
  | (none, st1) => (st1, .error (.httpException 404 "File not found in cache."))
  | (some e, st1) =>
    let st2 := update_replication_status st1 sha client "pending_replication" none now
    match alookup st2.disk e.local_path with
    | none =>
      (update_replication_status st2 sha client "failed" none now,
        .error (.httpException 500 "Failed to read cached file"))
    | some _bytes =>
      match env.uploadViaClient sha client with
      | none =>
        (update_replication_status st2 sha client "failed" none now,
          .error (.httpException 502 "upload failed"))
      | some gf =>
        (update_replication_status st2 sha client "synced" (some gf) now, .ok gf)

/-- ConnectionManager._synchronously_rebuild_file: round-robin pick, then a
blocking upload through the picked client. -/
def synchronously_rebuild_file (env : UploadEnv) (st : FMState)
    (reg : RegistryState) (sha : String) (now : Int) :
    (FMState × RegistryState) × Except PyExc (GeminiFile × String) :=
  match get_next_client reg with
  | .error e => ((st, reg), .error e)
  | .ok (client, reg1) =>
    match upload_file_via_client env st sha client now with
    | (st1, .ok gf) => ((st1, reg1), .ok (gf, client))
    | (st1, .error e) => ((st1, reg1), .error e)

/-- files.map_frontend_response_to_file_model. -/
def map_frontend_to_file (hexToB64 : String → Option String)
    (frontend : Option GeminiFile) (e : FileCacheEntry) (sizeBytes : Nat) :
    GeminiFile :=
  let fallbackName := "files/" ++ e.sha256
  let shaB64 :=
    match frontend.bind (fun f => f.sha256Hash) with
    | some h => some h
    | none =>
      match hexToB64 e.sha256 with
      | some b => some b
      | none => some e.sha256
  { name := some ((strTruthy (frontend.bind (fun f => f.name))).getD fallbackName),
    displayName := some (if e.original_filename = "" then "untitled" else e.original_filename),
    mimeType := some ((strTruthy e.mime_type).getD "application/octet-stream"),
    sizeBytes := some sizeBytes,
    sha256Hash := shaB64,
    uri := some ((strTruthy (frontend.bind (fun f => f.uri))).getD fallbackName),
    expirationTime :=
      match frontend.bind (fun f => f.expirationTime) with
      | some t => some t
      | none => e.gemini_file_expiration,
    downloadUri := frontend.bind (fun f => f.downloadUri),
    otherRequiredPresent := true }

/-- files.build_file_response: validate the remote descriptor, else map the
local entry and validate that (a failure of the second validation escapes as
a ValidationError, since the mapped dict never carries downloadUri unless
the frontend provided one). -/
def build_file_response (hexToB64 : String → Option String)
    (frontend : Option GeminiFile) (e : FileCacheEntry) (sizeBytes : Nat) :
    Except PyExc GeminiFile :=
  let mapped := map_frontend_to_file hexToB64 frontend e sizeBytes
  match frontend with
  | some f =>
    if validFile f then .ok f
    else if validFile mapped then .ok mapped
    else .error .validationError
  | none => if validFile mapped then .ok mapped else .error .validationError

/-- The deduplication scan of _process_cached_file_upload: first synced
replication value that carries a remote name and validates as a File. -/
def findSyncedWithName : List (String × ReplicationData) → Option GeminiFile
  | [] => none
  | (_, d) :: rest =>
    if d.status = "synced" ∧ (rdName d).isSome then
      match d.file with
      | some f => if validFile f then some f else findSyncedWithName rest
      | none => findSyncedWithName rest
    else findSyncedWithName rest

/-- The offline descriptor built by the 503 fallback of
_process_cached_file_upload (no downloadUri field). -/
def localFileData (hexToB64 : String → Option String) (sha : String)
    (e : FileCacheEntry) : GeminiFile :=
  { name := some ("files/" ++ sha),
    displayName := some (if e.original_filename = "" then "untitled" else e.original_filename),
    mimeType := some ((strTruthy e.mime_type).getD "application/octet-stream"),
    sizeBytes := some e.size_bytes,
    sha256Hash := some ((hexToB64 sha).getD sha),
    uri := some ("files/" ++ sha),
    downloadUri := none,
    otherRequiredPresent := true }

/-- The local variable final_mime_type of _process_cached_file_upload, for
a cached blob read back as bs. -/
def uploadFinalMime (menv : MimeEnv) (meta : SessionMeta) (ct : Option String)
    (bs : List Nat) (fnHint : Option String) : String :=
  selectUploadMime menv.mimetypesGuess meta ct bs menv.zipNamelist
    (chooseUploadFilename fnHint meta)

/-- The local variable final_filename of _process_cached_file_upload: the
chosen name with an inferred extension appended when it has none, else a
digest-based fallback name. -/
def uploadFinalFilename (menv : MimeEnv) (meta : SessionMeta)
    (fnHint ct : Option String) (bs : List Nat) (sha : String) : String :=
  match chooseUploadFilename fnHint meta with
  | none =>
    build_fallback_filename menv.mimetypesExt sha
      (some (uploadFinalMime menv meta ct bs fnHint))
  | some f =>
    if extOf f = "" then
      f ++ guess_extension_from_mime menv.mimetypesExt
        (some (uploadFinalMime menv meta ct bs fnHint)) ""
    else f

/-- files._process_cached_file_upload: dedup against an existing entry, else
create the entry, synchronously upload it through a round-robin client,
refresh the descriptor with a files.get, and build the final response.  On
a 503 (no executors) the offline fallback records a local synced replica but
its response validation fails on the missing downloadUri, so a 503 is
re-raised. -/
def process_cached_file_upload (env : UploadEnv) (menv : MimeEnv)
    (st : FMState) (reg : RegistryState) (sha path : String) (sizeBytes : Nat)
    (meta : SessionMeta) (sessionId : Option String)
    (filenameHint : Option String) (contentTypeHint : Option String)
    (now : Int) : (FMState × RegistryState) × Except PyExc GeminiFile :=
  let popSession := fun (s : FMState) =>
    match sessionId with
    | some sid => { s with upload_sessions := aremove s.upload_sessions sid }
    | none => s
  match get_metadata_entry st sha now with
  | (some entry, st1) =>
    match findSyncedWithName entry.replication_map with
    | some f => ((popSession st1, reg), .ok f)
    | none =>
      match build_file_response menv.hexToB64 none entry entry.size_bytes with
      | .ok f => ((popSession st1, reg), .ok f)
      | .error e => ((st1, reg), .error e)
  | (none, st1) =>
    let content := (alookup st1.disk path).getD []
    let finalMime := uploadFinalMime menv meta contentTypeHint content filenameHint
    let finalFilename :=
      uploadFinalFilename menv meta filenameHint contentTypeHint content sha
    let (entry, st2) :=
      create_metadata_entry st1 sha path finalFilename (some finalMime) sizeBytes now
    match synchronously_rebuild_file env st2 reg sha now with
    | ((st3, reg1), .ok (gf, client)) =>
      let remoteOpt :=
        match strTruthy gf.name with
        | some n => env.verifyRemote n client
        | none => none
      let (gfFinal, st4) :=
        match remoteOpt with
        | some rf => (rf, update_replication_status st3 sha client "synced" (some rf) now)
        | none => (gf, st3)
      let st5 := popSession st4
      match build_file_response menv.hexToB64 (some gfFinal) entry sizeBytes with
      | .ok f => ((st5, reg1), .ok f)
      | .error e => ((st5, reg1), .error e)
    | ((st3, reg1), .error e) =>
      match e with
      | .httpException 503 _ =>
        let localData := localFileData menv.hexToB64 sha entry
        let st4 := update_replication_status st3 sha "local" "synced" (some localData) now
        let st5 := popSession st4
        if validFile localData then ((st5, reg1), .ok localData)
        else
          ((st5, reg1),
            .error (.httpException 503 "No frontend clients available. Please ensure the browser client is connected."))
      | _ => ((st3, reg1), .error e)

/-- End-to-end model of one whole-body upload (files.resumable_upload
single-shot branch and files.uploadFromUrl): stream into the cache, enforce
size consistency, then the shared cached-file processing. -/
def uploadBytes (hash : List Nat → String) (env : UploadEnv) (menv : MimeEnv)
    (st : FMState) (reg : RegistryState) (content : List Nat) (filename : String)
    (meta : SessionMeta) (sessionId : Option String)
    (contentTypeHint : Option String) (headerSize : Option Nat) (now : Int) :
    (FMState × RegistryState) × Except PyExc GeminiFile :=
  match save_stream_to_cache hash st content filename with
  | (st1, .error _) =>
    ((st1, reg), .error (.httpException 500 "Failed to save file to cache."))
  | (st1, .ok (sha, path, size)) =>
    let declaredBad : Bool :=
      match meta.size_bytes with
      | some d => d ≠ size
      | none => false
    let headerBad : Bool :=
      match headerSize with
      | some h2 => h2 ≠ size
      | none => false
    if declaredBad ∨ headerBad then
      let st2 := { st1 with disk := aremove st1.disk path }
      let st3 :=
        match sessionId with
        | some sid => { st2 with upload_sessions := aremove st2.upload_sessions sid }
        | none => st2
      ((st3, reg), .error (.httpException 400 "declared size mismatch"))
    else
      process_cached_file_upload env menv st1 reg sha path size meta sessionId
        (some filename) contentTypeHint now

/-- One fileData / file_data node of the payload (only the key forms touched
by the rewrite are tracked). -/
structure FileDict where
  fileUri : Option String := none
  fileName : Option String := none
  file_uri : Option String := none
  file_name : Option String := none
deriving Repr, DecidableEq

/-- entry.replication_map.get(client_id), reading through the store (entry
objects are shared between the store and the captured references). -/
def replicaFor (st : FMState) (sha client : String) : Option ReplicationData :=
  match alookup st.metadata_store sha with
  | some e => alookup e.replication_map client
  | none => none

/-- ConnectionManager._is_client_synced. -/
def is_client_synced (st : FMState) (sha client : String) : Bool :=
  match replicaFor st sha client with
  | some d => d.status == "synced"
  | none => false

/-- The final_uri local of _rewrite_file_references: the synced uri when
truthy, else the remote name when truthy. -/
def finalUriFor (d : ReplicationData) : Option String :=
  match strTruthy (rdUri d) with
  | some u => some u
  | none => strTruthy (rdName d)

/-- Keys of the required_entries dict comprehension: first-occurrence order,
deduplicated. -/
def dedupFirst : List String → List String
  | [] => []
  | x :: xs => x :: (dedupFirst xs).filter (fun y => y ≠ x)

/-- ConnectionManager._collect_missing_for_client over the required digests. -/
def collect_missing (st : FMState) (required : List String) (client : String) :
    List String :=
  required.filter (fun sha => ¬ is_client_synced st sha client)

/-- The scan loop of ConnectionManager._select_best_client: track the least
missing count seen and every client achieving it, in scan order. -/
def select_best_fold (st : FMState) (required : List String) :
    List String → Option Nat → List String → Option Nat × List String
  | [], best, bestClients => (best, bestClients)
  | c :: rest, best, bestClients =>
    let mc := (collect_missing st required c).length
    match best with
    | none => select_best_fold st required rest (some mc) [c]
    | some b =>
      if mc < b then select_best_fold st required rest (some mc) [c]
      else if mc = b then select_best_fold st required rest (some b) (bestClients ++ [c])
      else select_best_fold st required rest (some b) bestClients

/-- ConnectionManager._select_best_client; `pick` stands for random.choice.
Returns the selected client, its missing list and the preferred client
missing list. -/
def select_best_client (st : FMState) (required : List String)
    (active : List String) (preferred : String) (pick : List String → String) :
    Except PyExc (String × List String × List String) :=
  if active.isEmpty then
    .error (.httpException 503 "No frontend clients connected")
  else
    match select_best_fold st required active none [] with
    | (_, bestClients) =>
      if bestClients.isEmpty then
        .error (.httpException 503 "No frontend clients available for scheduling")
      else
        let selected :=
          if bestClients.contains preferred then preferred else pick bestClients
        .ok (selected, collect_missing st required selected,
          collect_missing st required preferred)

/-- ConnectionManager._replicate_files_to_client: block on one upload per
missing digest, propagating the first failure. -/
def replicate_files_to_client (env : UploadEnv) (st : FMState) (client : String)
    (shas : List String) (now : Int) : FMState × Except PyExc Unit :=
  match shas with
  | [] => (st, .ok ())
  | sha :: rest =>
    match upload_file_via_client env st sha client now with
    | (st1, .ok _) => replicate_files_to_client env st1 client rest now
    | (st1, .error e) => (st1, .error e)

/-- ConnectionManager._rewrite_file_references: each node must be synced on
the chosen client (else 503); its fileUri becomes the synced uri, falling
back to the remote name, and the alternative key forms are dropped.  A
synced record with neither uri nor name is skipped unchanged. -/
def rewrite_file_references (st : FMState) (client : String) :
    List (String × FileDict) → Except PyExc (List FileDict)
  | [] => .ok []
  | (sha, fd) :: rest =>
    match replicaFor st sha client with
    | none => .error (.httpException 503 "Client does not have required file")
    | some d =>
      if d.status ≠ "synced" then
        .error (.httpException 503 "Client does not have required file")
      else
        match finalUriFor d with
        | none =>
          match rewrite_file_references st client rest with
          | .ok rw => .ok (fd :: rw)
          | .error e => .error e
        | some u =>
          match rewrite_file_references st client rest with
          | .ok rw => .ok ({ fileUri := some u } :: rw)
          | .error e => .error e

/-- Synchronous actions of the file phase, in order. -/
inductive SchedAction where
  | replicate (client sha : String)
  | dispatch (client : String)
deriving Repr, DecidableEq

/-- Result of the file-scheduling prefix of
ConnectionManager.handle_api_request. -/
structure SchedOutcome where
  selected : String
  fmState : FMState
  trace : List SchedAction
  background : List (String × String)
  rewritten : List FileDict
deriving Repr, DecidableEq

/-- The file-scheduling prefix of ConnectionManager.handle_api_request:
round-robin preferred client, missing sets, best-client selection,
synchronous replication of the selected client missing set, fire-and-forget
healing of the rejected round-robin client, payload rewrite, then dispatch.
The trace records the synchronous executor interactions in program order. -/
def handle_api_request_file_phase (env : UploadEnv) (pick : List String → String)
    (st : FMState) (active : List String) (preferred : String)
    (refs : List (String × FileDict)) (now : Int) : Except PyExc SchedOutcome :=
  if refs.isEmpty then
    .ok { selected := preferred, fmState := st, trace := [.dispatch preferred],
          background := [], rewritten := [] }
  else
    let required := dedupFirst (refs.map Prod.fst)
    let missingInitial := collect_missing st required preferred
    if missingInitial.isEmpty then
      match rewrite_file_references st preferred refs with
      | .ok rw =>
        .ok { selected := preferred, fmState := st, trace := [.dispatch preferred],
              background := [], rewritten := rw }
      | .error e => .error e
    else
      match select_best_client st required active preferred pick with
      | .error e => .error e
      | .ok (best, missBest, missInit) =>
        match replicate_files_to_client env st best missBest now with
        | (st1, .ok _) =>
          let background :=
            if best ≠ preferred ∧ ¬ missInit.isEmpty then
              missInit.map (fun sha => (preferred, sha))
            else []
          match rewrite_file_references st1 best refs with
          | .ok rw =>
            .ok { selected := best, fmState := st1,
                  trace := (missBest.map (fun sha => SchedAction.replicate best sha)) ++
                    [.dispatch best],
                  background := background, rewritten := rw }
          | .error e => .error e
        | (_, .error e) => .error e

/-! Concrete states used by witnesses and counterexamples. -/

/-- A one-entry registry used to witness the unknown-digest frame claims. -/
def c10state : FMState :=
  { metadata_store :=
      [("d2a1", { sha256 := "d2a1", local_path := "cache/d2/a1/d2a1.bin",
                  original_filename := "a.pdf", mime_type := some "application/pdf",
                  size_bytes := 3 })],
    reverse_mapping := [("files/d2a1", "d2a1")] }

/-- Registry after connecting executors A, B, C in this order. -/
def c6reg0 : RegistryState := rconnect (rconnect (rconnect {} "A") "B") "C"

/-- Registry after one round-robin pick. -/
def c6reg1 : RegistryState :=
  { active_connections := ["A", "B", "C"], client_ids := ["A", "B", "C"], next_index := 1 }

/-- Registry after two round-robin picks: the cursor points at position 2. -/
def c6reg2 : RegistryState :=
  { active_connections := ["A", "B", "C"], client_ids := ["A", "B", "C"], next_index := 2 }

/-- Registry after executor C disconnects: two live executors, cursor 2. -/
def c6reg3 : RegistryState := rdisconnect c6reg2 "C"

/-- Digest of the cached file in the C1 scenario. -/
def c1sha : String := "aaaabbbb"

/-- A registry holding one cached entry with a synced replica and the alias
the caller dispatched under. -/
def c1state : FMState :=
  { metadata_store :=
      [(c1sha,
        { sha256 := c1sha, local_path := "cache/aa/aa/aaaabbbb.bin",
          original_filename := "f.pdf", mime_type := some "application/pdf",
          size_bytes := 3,
          replication_map :=
            [("client-1",
              { status := "synced",
                file := some
                  { name := some "files/remote-1", uri := some "uri-1",
                    mimeType := some "application/pdf", sizeBytes := some 3,
                    sha256Hash := some "hh", downloadUri := some "dl" } })] })],
    reverse_mapping := [("files/old-name", c1sha)] }

/-- Digest of the C4 scenario (64 lowercase hex characters). -/
def c4sha : String :=
  "aaaaaaaaaaaaaaaaaaaaaaaaaaaaaaaaaaaaaaaaaaaaaaaaaaaaaaaaaaaaaaaa"

/-- Canonical name of the C4 file. -/
def c4name : String := "files/" ++ c4sha

/-- State holding the C4 file, built by the real entry constructor. -/
def c4state : FMState :=
  (create_metadata_entry {} c4sha ("cache/aa/aa/" ++ c4sha ++ ".bin") "f.pdf"
    (some "application/pdf") 3 0).2

/-- The delayed executor descriptor that references the deleted C4 file. -/
def c4remote : GeminiFile :=
  { name := some c4name, sha256Hash := some c4sha, sizeBytes := some 3,
    mimeType := some "application/pdf" }

/-- State after the explicit DELETE of the C4 file. -/
def c4afterDelete : FMState := (delete_file c4state c4name 0).2.2

/-- State after a delayed executor response recreates a stub entry for the
deleted digest. -/
def c4resurrected : FMState :=
  (ensure_remote_entry (fun _ => none) c4afterDelete c4remote 1).2

/-- The resurrected state with the digest explicitly tombstoned. -/
def c4tombstoned : FMState := mark_deleted c4resurrected c4sha []

/-- C3 scenario, entry 1: 10MB, recently accessed, cloud expiration past. -/
def c3e1 : FileCacheEntry :=
  { sha256 := "d1", local_path := "cache/d1/f1.bin", original_filename := "f1",
    mime_type := none, size_bytes := 10485760, last_accessed_at := 800,
    gemini_file_expiration := some 500 }

/-- C3 scenario, entry 2: 10MB, stale (oldest last-accessed), no expiration. -/
def c3e2 : FileCacheEntry :=
  { sha256 := "d2", local_path := "cache/d2/f2.bin", original_filename := "f2",
    mime_type := none, size_bytes := 10485760, last_accessed_at := 10 }

/-- C3 scenario, entry 3: 10MB, recently accessed, no expiration. -/
def c3e3 : FileCacheEntry :=
  { sha256 := "d3", local_path := "cache/d3/f3.bin", original_filename := "f3",
    mime_type := none, size_bytes := 10485760, last_accessed_at := 900 }

/-- C3 scenario store: three 10MB entries. -/
def c3store : List (String × FileCacheEntry) := [("d1", c3e1), ("d2", c3e2), ("d3", c3e3)]

/-- C3 scenario state, blobs on disk. -/
def c3st : FMState :=
  { metadata_store := c3store,
    disk := [("cache/d1/f1.bin", [1]), ("cache/d2/f2.bin", [2]), ("cache/d3/f3.bin", [3])] }

/-- Decidable equality on Except results (needed to evaluate the embedded
functions inside closed theorems). -/
instance {ε α : Type} [DecidableEq ε] [DecidableEq α] : DecidableEq (Except ε α) :=
  fun a b =>
    match a, b with
    | .ok x, .ok y =>
      if h : x = y then .isTrue (by rw [h])
      else .isFalse (by intro hh; cases hh; exact h rfl)
    | .error x, .error y =>
      if h : x = y then .isTrue (by rw [h])
      else .isFalse (by intro hh; cases hh; exact h rfl)
    | .ok _, .error _ => .isFalse (by intro hh; cases hh)
    | .error _, .ok _ => .isFalse (by intro hh; cases hh)

/-- One live upload session for the C5 witness. -/
def c5st : FMState :=
  { upload_sessions := [("sess1", { metadata := {}, created_at := 0 })] }

/-- The JPEG bytes of the C8 scenario (JPEG magic ff d8 ff). -/
def c8bytes : List Nat := [255, 216, 255, 224, 0, 16]

/-- Digest returned by the hash parameter in the C8 scenario. -/
def c8sha : String :=
  "bbbbbbbbbbbbbbbbbbbbbbbbbbbbbbbbbbbbbbbbbbbbbbbbbbbbbbbbbbbbbbbb"

/-- Library environment of the C8 scenario. -/
def c8menv : MimeEnv :=
  { mimetypesGuess := fun _ => none, mimetypesExt := fun _ => none,
    hexToB64 := fun _ => none, zipNamelist := none }

/-- Executor descriptor returned for the C8 upload. -/
def c8gf : GeminiFile :=
  { name := some "files/r1", uri := some "https://x/files/r1",
    mimeType := some "text/plain", sizeBytes := some 6, sha256Hash := some "hh",
    downloadUri := some "dl" }

/-- Executor environment of the C8 scenario. -/
def c8env : UploadEnv :=
  { uploadViaClient := fun _ _ => some c8gf, verifyRemote := fun _ _ => none }

/-- One live executor for the C8 scenario. -/
def c8reg : RegistryState :=
  { active_connections := ["E1"], client_ids := ["E1"], next_index := 0 }

/-- The C8 upload: JPEG content with a text/plain Content-Type header. -/
def c8result : (FMState × RegistryState) × Except PyExc GeminiFile :=
  uploadBytes (fun _ => c8sha) c8env c8menv {} c8reg c8bytes "photo.jpg" {} none
    (some "text/plain") none 0

/-- Digest of the C9 witness file. -/
def c9sha64 : String :=
  "cccccccccccccccccccccccccccccccccccccccccccccccccccccccccccccccc"

/-- Synced descriptor of the C9 witness file. -/
def c9gf : GeminiFile :=
  { name := some "files/rem9", uri := some "u9", mimeType := some "text/plain",
    sizeBytes := some 4, sha256Hash := some "h9", downloadUri := some "d9" }

/-- One cached entry with one synced replica, built by the real
constructors. -/
def c9st : FMState :=
  update_replication_status
    (create_metadata_entry {} c9sha64 ("cache/cc/cc/" ++ c9sha64 ++ ".bin") "f.txt"
      (some "text/plain") 4 0).2
    c9sha64 "E1" "synced" (some c9gf) 0

/-- The remote name the C9 caller deletes and re-queries. -/
def c9name : String := "files/rem9"

/-- Constant digest used by the C7 witness (the same bytes are uploaded
twice, so a constant digest function is faithful on this trace). -/
def c7hash (_ : List Nat) : String := "c7digestc7digestc7digestc7digest"

/-- Descriptor answered by the single executor of the C7 witness. -/
def c7gf : GeminiFile :=
  { name := some "files/remote-c7", uri := some "u7", mimeType := some "text/plain",
    sizeBytes := some 3, sha256Hash := some "h7", downloadUri := some "d7" }

/-- Upload environment of the C7 witness: the executor upload succeeds with
c7gf and the files.get refresh goes unanswered. -/
def c7env : UploadEnv :=
  { uploadViaClient := fun _ _ => some c7gf, verifyRemote := fun _ _ => none }

/-- Mime environment of the C7 witness. -/
def c7menv : MimeEnv :=
  { mimetypesGuess := fun _ => none, mimetypesExt := fun _ => none,
    hexToB64 := fun _ => none, zipNamelist := none }

/-- Registry of the C7 witness: one connected executor. -/
def c7reg : RegistryState := rconnect {} "X"

/-- Bytes uploaded twice by the C7 witness. -/
def c7bytes : List Nat := [1, 2, 3]

/-- First upload of the C7 witness. -/
def c7round1 : (FMState × RegistryState) × Except PyExc GeminiFile :=
  uploadBytes c7hash c7env c7menv {} c7reg c7bytes "f.bin" {} none none none 0

/-- Second upload of the identical bytes, from the post-state of the
first. -/
def c7round2 : (FMState × RegistryState) × Except PyExc GeminiFile :=
  uploadBytes c7hash c7env c7menv c7round1.1.1 c7round1.1.2 c7bytes "f.bin" {}
    none none none 0

/-- Digest referenced by the C2 witness payload. -/
def c2sha : String :=
  "dddddddddddddddddddddddddddddddddddddddddddddddddddddddddddddddd"

/-- Synced descriptor of the C2 witness file on executor E2. -/
def c2gf : GeminiFile :=
  { name := some "files/rem2", uri := some "u2", mimeType := some "text/plain",
    sizeBytes := some 4, sha256Hash := some "h2", downloadUri := some "d2" }

/-- The C2 witness cache: one entry, synced on E2 only. -/
def c2st : FMState :=
  update_replication_status
    (create_metadata_entry {} c2sha ("cache/dd/dd/" ++ c2sha ++ ".bin") "g.txt"
      (some "text/plain") 4 0).2
    c2sha "E2" "synced" (some c2gf) 0

/-- Upload environment of the C2 witness (never consulted: the selected
executor has nothing missing). -/
def c2env : UploadEnv :=
  { uploadViaClient := fun _ _ => none, verifyRemote := fun _ _ => none }

/-- Deterministic stand-in for random.choice in the C2 witness. -/
def c2pick (l : List String) : String := l.headD ""

/-- The single fileData reference of the C2 witness payload. -/
def c2refs : List (String × FileDict) := [(c2sha, {})]

/-- Expected outcome of the C2 witness run: E2 selected, nothing to
replicate, background healing queued for the rejected round-robin client E1,
the reference rewritten to the synced uri. -/
def c2out : SchedOutcome :=
  { selected := "E2", fmState := c2st, trace := [.dispatch "E2"],
    background := [("E1", c2sha)], rewritten := [{ fileUri := some "u2" }] }

/-! Basic association-list lemmas. -/

theorem alookup_aset_self {V : Type} (l : List (String × V)) (k : String) (v : V) :
    alookup (aset l k v) k = some v := by
  induction l with
  | nil => simp [aset, alookup]
  | cons p rest ih =>
    by_cases h : p.1 = k
    · simp [aset, h, alookup]
    · simp [aset, h, alookup, ih]

theorem alookup_aset_ne {V : Type} (l : List (String × V)) (k k2 : String) (v : V)
    (h : k2 ≠ k) : alookup (aset l k v) k2 = alookup l k2 := by
  induction l with
  | nil => simp [aset, alookup, Ne.symm h]
  | cons p rest ih =>
    by_cases hp : p.1 = k
    · subst hp
      simp [aset, alookup, Ne.symm h]
    · simp [aset, hp, alookup, ih]

theorem alookup_aremove_self {V : Type} (l : List (String × V)) (k : String) :
    alookup (aremove l k) k = none := by
  induction l with
  | nil => simp [aremove, alookup]
  | cons p rest ih =>
    by_cases h : p.1 = k
    · simp [aremove, h, ih]
    · simp [aremove, h, alookup, ih]

theorem alookup_aremove_ne {V : Type} (l : List (String × V)) (k k2 : String)
    (h : k2 ≠ k) : alookup (aremove l k) k2 = alookup l k2 := by
  induction l with
  | nil => simp [aremove, alookup]
  | cons p rest ih =>
    by_cases hp : p.1 = k
    · subst hp
      simp [aremove, alookup, Ne.symm h, ih]
    · simp [aremove, hp, alookup, ih]

theorem alookup_mem {V : Type} (l : List (String × V)) (k : String) (v : V)
    (h : alookup l k = some v) : (k, v) ∈ l := by
  induction l with
  | nil => simp [alookup] at h
  | cons p rest ih =>
    by_cases hp : p.1 = k
    · simp [alookup, hp] at h
      have : p = (k, v) := by
        obtain ⟨a, b⟩ := p
        simp at hp
        simp [hp, h.symm]
      exact this ▸ List.mem_cons_self _ _
    · simp [alookup, hp] at h
      exact List.mem_cons_of_mem _ (ih h)

/-! Claim C10. -/

/-- Claim C10: update_replication_status on a digest with no metadata entry
returns without raising and leaves the whole FileManager state unchanged,
and reset_replication_map on an unknown digest is likewise a no-op. -/
theorem claim10_unknown_digest_is_noop (st : FMState) (sha client status : String)
    (gf : Option GeminiFile) (now : Int)
    (h : alookup st.metadata_store sha = none) :
    update_replication_status st sha client status gf now = st ∧
      reset_replication_map st sha now = st := by
  constructor
  · simp [update_replication_status, get_metadata_entry, h]
  · simp [reset_replication_map, get_metadata_entry, h]

/-- Witness for claim C10 at a concrete one-entry registry and an unknown
digest. -/
theorem claim10_witness :
    alookup c10state.metadata_store "unknown-digest" = none ∧
      (update_replication_status c10state "unknown-digest" "client-1" "synced" none 5 = c10state ∧
        reset_replication_map c10state "unknown-digest" 5 = c10state) :=
  ⟨by decide,
    claim10_unknown_digest_is_noop c10state "unknown-digest" "client-1" "synced" none 5
      (by decide)⟩

/-! Claim C6. -/

/-- Claim C6 (refuted, code bug): get_next_client answers 503 on an empty
registry, but after connecting A, B, C, serving two picks and disconnecting
C, the live list is the nonempty ["A", "B"] while the cursor still points at
index 2, and the next pick fails with an uncaught IndexError instead of
NoExecutors. -/
theorem claim6_round_robin_index_error :
    get_next_client ({} : RegistryState) =
        .error (.httpException 503 "No frontend clients connected") ∧
      get_next_client c6reg0 = .ok ("A", c6reg1) ∧
      get_next_client c6reg1 = .ok ("B", c6reg2) ∧
      c6reg3.client_ids = ["A", "B"] ∧
      c6reg3.client_ids ≠ [] ∧
      get_next_client c6reg3 = .error .indexError := by
  decide

/-! Claim C1. -/

/-- The ApiException branch always re-raises a fresh HTTPException carrying
only the code and detail, whatever the state and message. -/
theorem handle_error_raises_plain_http (st : FMState) (p : Option String)
    (c : Nat) (m : String) (now : Int) :
    (handle_non_streaming_api_error st p c m now).2 = .httpException c m := by
  unfold handle_non_streaming_api_error
  repeat' split
  all_goals rfl

/-- Claim C1 (refuted, code bug): the is_resettable flag is set on the caught
ApiException, but the exception actually raised is a fresh HTTPException, so
handle_api_request never enters its rebuild-and-retry branch — for any
state, any payload file name and any executor error, the decision is to
re-raise.  At the concrete failing input (an executor 404 with message
"file not found" and a resolvable payload fileName) the reset branch does
run: the replication map of the resolved digest is emptied, yet no retry
follows. -/
theorem claim1_rebuild_retry_never_fires :
    (∀ (st : FMState) (payloadFileName orig : Option String) (code : Nat)
        (msg : String) (now : Int),
      handle_api_request_error_decision
          (handle_non_streaming_api_error st payloadFileName code msg now).1
          (handle_non_streaming_api_error st payloadFileName code msg now).2 orig =
        .raisedToCaller (handle_non_streaming_api_error st payloadFileName code msg now).2) ∧
      (alookup c1state.metadata_store c1sha).map
          (fun e => e.replication_map.length) = some 1 ∧
      (alookup (handle_non_streaming_api_error c1state (some "files/old-name")
            404 "file not found" 7).1.metadata_store c1sha).map
          (fun e => e.replication_map) = some [] := by
  refine ⟨?_, by decide, by decide⟩
  intro st payloadFileName orig code msg now
  rw [handle_error_raises_plain_http]
  simp [handle_api_request_error_decision, has_resettable_flag]

/-! Claim C4. -/

/-- Claim C4 (refuted, code bug): the DELETE handler never writes the
tombstone: after deleting a cached file both deleted_shas and
deleted_alias_map are still empty (mark_deleted is dead code), a delayed
executor descriptor recreates an entry for the very same digest and the
alias resolves to it again; and even a state in which the digest is
explicitly tombstoned still resolves the alias, because
get_sha256_by_filename never consults the tombstone maps. -/
theorem claim4_tombstone_never_written :
    (alookup c4state.metadata_store c4sha).isSome = true ∧
      (delete_file c4state c4name 0).1 = 200 ∧
      c4afterDelete.deleted_shas = [] ∧
      c4afterDelete.deleted_alias_map = [] ∧
      (ensure_remote_entry (fun _ => none) c4afterDelete c4remote 1).1 = some c4sha ∧
      (get_sha256_by_filename c4resurrected c4name).1 = some c4sha ∧
      is_marked_deleted c4tombstoned c4sha = true ∧
      (get_sha256_by_filename c4tombstoned c4name).1 = some c4sha := by
  decide

/-! Claim C3: eviction sweep lemmas. -/

theorem mem_ttlStep (now : Int) (acc : List String) (p : String × FileCacheEntry)
    (x : String) (hx : x ∈ acc) : x ∈ ttlStep now acc p := by
  unfold ttlStep
  split
  · split
    · exact List.mem_append_left _ hx
    · exact hx
  · exact hx

theorem mem_foldl_ttlStep (now : Int) (l : List (String × FileCacheEntry)) :
    ∀ (acc : List String) (x : String), x ∈ acc → x ∈ l.foldl (ttlStep now) acc := by
  induction l with
  | nil => intro acc x hx; simpa using hx
  | cons p t ih =>
    intro acc x hx
    exact ih _ _ (mem_ttlStep now acc p x hx)

theorem expired_mem_foldl_ttlStep (now : Int) (l : List (String × FileCacheEntry)) :
    ∀ (acc : List String) (sha : String) (e : FileCacheEntry),
      (sha, e) ∈ l → isExpiredAt e now = true → sha ∈ l.foldl (ttlStep now) acc := by
  induction l with
  | nil => intro acc sha e h; simp at h
  | cons p t ih =>
    intro acc sha e h hexp
    rcases List.mem_cons.mp h with h1 | h2
    · have hstep : sha ∈ ttlStep now acc p := by
        rw [← h1]
        unfold ttlStep
        unfold isExpiredAt at hexp
        cases hg : e.gemini_file_expiration with
        | none => rw [hg] at hexp; simp at hexp
        | some exp =>
          rw [hg] at hexp
          simp only [decide_eq_true_eq] at hexp
          by_cases hc : acc.contains sha
          · have : sha ∈ acc := by
              have := hc
              simpa [List.contains, List.elem_iff] using this
            simp only [hg]
            split
            · exact List.mem_append_left _ this
            · exact this
          · simp [hg, hexp, hc]
            split
            · assumption
            · simp
      exact mem_foldl_ttlStep now t _ sha hstep
    · exact ih (ttlStep now acc p) sha e h2 hexp

theorem mem_lru_loop (quota : Nat) (l : List FileCacheEntry) :
    ∀ (total : Nat) (marks : List String) (x : String),
      x ∈ marks → x ∈ lru_loop quota l total marks := by
  induction l with
  | nil => intro total marks x hx; simpa [lru_loop] using hx
  | cons e t ih =>
    intro total marks x hx
    unfold lru_loop
    split
    · exact hx
    · exact ih _ _ _ (List.mem_append_left _ hx)

theorem mem_computeToDelete_of_expired (store : List (String × FileCacheEntry))
    (now : Int) (quota : Nat) (sha : String) (e : FileCacheEntry)
    (h : (sha, e) ∈ store) (hexp : isExpiredAt e now = true) :
    sha ∈ computeToDelete store now quota := by
  have hm : sha ∈ ttl_marks store now :=
    expired_mem_foldl_ttlStep now store [] sha e h hexp
  unfold computeToDelete
  split
  · exact mem_lru_loop _ _ _ _ _ hm
  · exact hm

theorem alookup_delete_entry_self (s : FMState) (x : String) :
    alookup (delete_entry s x).metadata_store x = none := by
  unfold delete_entry
  cases h : alookup s.metadata_store x with
  | none => simpa using h
  | some e => simp [alookup_aremove_self]

theorem alookup_delete_entry_ne (s : FMState) (x k : String) (hne : k ≠ x) :
    alookup (delete_entry s x).metadata_store k = alookup s.metadata_store k := by
  unfold delete_entry
  cases h : alookup s.metadata_store x with
  | none => simp
  | some e => simp [alookup_aremove_ne _ _ _ hne]

theorem alookup_delete_entry_absent (s : FMState) (x k : String)
    (h : alookup s.metadata_store k = none) :
    alookup (delete_entry s x).metadata_store k = none := by
  by_cases hk : k = x
  · subst hk; exact alookup_delete_entry_self s k
  · rw [alookup_delete_entry_ne s x k hk]; exact h

theorem foldl_delete_absent (l : List String) :
    ∀ (s : FMState) (k : String), alookup s.metadata_store k = none →
      alookup ((l.foldl (fun s2 sha => delete_entry s2 sha) s)).metadata_store k = none := by
  induction l with
  | nil => intro s k h; simpa using h
  | cons x t ih =>
    intro s k h
    exact ih _ _ (alookup_delete_entry_absent s x k h)

theorem foldl_delete_mem (l : List String) :
    ∀ (s : FMState) (k : String), k ∈ l →
      alookup ((l.foldl (fun s2 sha => delete_entry s2 sha) s)).metadata_store k = none := by
  induction l with
  | nil => intro s k h; simp at h
  | cons x t ih =>
    intro s k h
    rcases List.mem_cons.mp h with h1 | h2
    · subst h1
      exact foldl_delete_absent t _ _ (alookup_delete_entry_self s k)
    · exact ih _ _ h2

theorem foldl_delete_notmem (l : List String) :
    ∀ (s : FMState) (k : String), k ∉ l →
      alookup ((l.foldl (fun s2 sha => delete_entry s2 sha) s)).metadata_store k =
        alookup s.metadata_store k := by
  induction l with
  | nil => intro s k _; rfl
  | cons x t ih =>
    intro s k h
    have hx : k ≠ x := fun hh => h (hh ▸ List.mem_cons_self x t)
    have ht : k ∉ t := fun hh => h (List.mem_cons_of_mem x hh)
    rw [List.foldl_cons, ih _ _ ht, alookup_delete_entry_ne s x k hx]

/-- Claim C3, counterexample to the stated scenario: with three 10MB entries
under a 25MB quota, entry 1 expired and entry 2 least recently accessed, the
sweep marks only entry 1 — after the TTL mark the remaining 20MB do not
exceed the quota, so the LRU pass never runs and entry 2 survives, where the
claim expected entries 1 and 2 both destroyed. -/
theorem claim3_counterexample :
    isExpiredAt c3e1 1000 = true ∧
      isExpiredAt c3e2 1000 = false ∧ isExpiredAt c3e3 1000 = false ∧
      c3e2.last_accessed_at < c3e1.last_accessed_at ∧
      c3e2.last_accessed_at < c3e3.last_accessed_at ∧
      computeToDelete c3store 1000 (25 * 1024 * 1024) = ["d1"] ∧
      ¬ ("d2" ∈ computeToDelete c3store 1000 (25 * 1024 * 1024)) ∧
      (alookup (periodic_cleanup_once c3st 1000 25).metadata_store "d2").isSome = true := by
  decide

/-- Claim C3 as amended: the sweep marks every entry whose cloud expiration
is past; the LRU pass runs only when the total unmarked bytes exceed the
quota (so when they do not, the marks are exactly the TTL marks); every
marked digest is destroyed and every unmarked entry is retained; and in the
three-entry 10MB/25MB scenario only entry 1 is destroyed while entries 2
and 3 (and their blobs) are retained. -/
theorem claim3_ttl_lru_sweep (st : FMState) (now : Int) (quotaMB : Nat) :
    (∀ p ∈ st.metadata_store, isExpiredAt p.2 now = true →
        p.1 ∈ computeToDelete st.metadata_store now (quotaMB * 1024 * 1024)) ∧
      (unmarkedTotal st.metadata_store (ttl_marks st.metadata_store now) ≤
          quotaMB * 1024 * 1024 →
        computeToDelete st.metadata_store now (quotaMB * 1024 * 1024) =
          ttl_marks st.metadata_store now) ∧
      (∀ sha ∈ computeToDelete st.metadata_store now (quotaMB * 1024 * 1024),
        alookup (periodic_cleanup_once st now quotaMB).metadata_store sha = none) ∧
      (∀ p ∈ st.metadata_store,
        p.1 ∉ computeToDelete st.metadata_store now (quotaMB * 1024 * 1024) →
        alookup (periodic_cleanup_once st now quotaMB).metadata_store p.1 =
          alookup st.metadata_store p.1) ∧
      (computeToDelete c3store 1000 (25 * 1024 * 1024) = ["d1"] ∧
        alookup (periodic_cleanup_once c3st 1000 25).metadata_store "d1" = none ∧
        (alookup (periodic_cleanup_once c3st 1000 25).metadata_store "d2").isSome = true ∧
        (alookup (periodic_cleanup_once c3st 1000 25).metadata_store "d3").isSome = true ∧
        alookup (periodic_cleanup_once c3st 1000 25).disk "cache/d1/f1.bin" = none ∧
        (alookup (periodic_cleanup_once c3st 1000 25).disk "cache/d2/f2.bin").isSome = true) := by
  refine ⟨?_, ?_, ?_, ?_, by decide⟩
  · intro p hp hexp
    exact mem_computeToDelete_of_expired _ now _ p.1 p.2 hp hexp
  · intro h
    have hnot : ¬ (unmarkedTotal st.metadata_store (ttl_marks st.metadata_store now) >
        quotaMB * 1024 * 1024) := not_lt.mpr h
    simp [computeToDelete, hnot]
  · intro sha hs
    unfold periodic_cleanup_once
    exact foldl_delete_mem _ _ _ hs
  · intro p hp hnot
    unfold periodic_cleanup_once
    exact foldl_delete_notmem _ _ _ hnot

/-- Witness for the amended C3 theorem: the expired entry of the scenario is
marked by the sweep. -/
theorem claim3_witness :
    ("d1", c3e1) ∈ c3st.metadata_store ∧ isExpiredAt c3e1 1000 = true ∧
      "d1" ∈ computeToDelete c3st.metadata_store 1000 (25 * 1024 * 1024) :=
  ⟨by decide, by decide,
    (claim3_ttl_lru_sweep c3st 1000 25).1 ("d1", c3e1) (by decide) (by decide)⟩

/-! Claim C5. -/

/-- Claim C5: on a live upload session, a chunked PUT whose offset equals the
current bytes-written succeeds — a non-final PUT answers 308 with the new
offset and appends the data to the chunk state, a final PUT (with a
consistent declared size and a well-formed digest) finalizes with the
accumulated bytes — while a PUT with any other offset fails with the
OffsetMismatch 400 and discards both the chunk state and the upload session. -/
theorem claim5_chunk_offset (hash : List Nat → String) (st : FMState)
    (sid : String) (data : List Nat) (offset : Nat) (finalize : Bool)
    (hsess : (alookup st.upload_sessions sid).isSome = true) :
    (offset ≠ currentChunkSize st sid →
      (resumable_upload_chunked hash st sid data offset finalize).1 = .offsetMismatch ∧
        alookup (resumable_upload_chunked hash st sid data offset finalize).2.chunk_upload_states sid = none ∧
        alookup (resumable_upload_chunked hash st sid data offset finalize).2.upload_sessions sid = none) ∧
      (offset = currentChunkSize st sid → finalize = false →
        (resumable_upload_chunked hash st sid data offset finalize).1 =
            .resume (currentChunkSize st sid + data.length) ∧
          (alookup (resumable_upload_chunked hash st sid data offset finalize).2.chunk_upload_states sid).map
              (fun s => s.size_bytes) = some (currentChunkSize st sid + data.length) ∧
          (alookup (resumable_upload_chunked hash st sid data offset finalize).2.chunk_upload_states sid).map
              (fun s => s.hashed) = some (chunkHashed st sid ++ data) ∧
          (alookup (resumable_upload_chunked hash st sid data offset finalize).2.upload_sessions sid).isSome = true) ∧
      (offset = currentChunkSize st sid → finalize = true →
        (sessionDeclaredSize st sid = none ∨
          sessionDeclaredSize st sid = some (currentChunkSize st sid + data.length)) →
        4 ≤ (hash (chunkHashed st sid ++ data)).length →
        ∃ p, (resumable_upload_chunked hash st sid data offset finalize).1 =
          .finalized (hash (chunkHashed st sid ++ data)) p
            (currentChunkSize st sid + data.length)) := by
  obtain ⟨sess, hs⟩ := Option.isSome_iff_exists.mp hsess
  refine ⟨?_, ?_, ?_⟩
  · intro hne
    cases hstate : alookup st.chunk_upload_states sid with
    | some s =>
      have hsz : s.size_bytes ≠ offset := by
        simp [currentChunkSize, hstate] at hne
        exact fun hh => hne hh.symm
      simp [resumable_upload_chunked, hs, append_chunk_data, hstate, hsz,
        discard_chunk_upload, alookup_aremove_self]
    | none =>
      have hsz : offset ≠ 0 := by
        simpa [currentChunkSize, hstate] using hne
      have hsz0 : (0 : Nat) ≠ offset := Ne.symm hsz
      simp [resumable_upload_chunked, hs, append_chunk_data, hstate,
        create_chunk_state, hsz0,
        discard_chunk_upload, alookup_aset_self, alookup_aremove_self]
  · intro heq hfin
    subst hfin
    cases hstate : alookup st.chunk_upload_states sid with
    | some s =>
      have hsz : s.size_bytes = offset := by
        simp [currentChunkSize, hstate] at heq
        exact heq.symm
      simp [resumable_upload_chunked, hs, append_chunk_data, hstate, hsz,
        currentChunkSize, chunkHashed, alookup_aset_self]
    | none =>
      have hsz : offset = 0 := by
        simpa [currentChunkSize, hstate] using heq
      subst hsz
      simp [resumable_upload_chunked, hs, append_chunk_data, hstate,
        create_chunk_state, currentChunkSize, chunkHashed, alookup_aset_self]
  · intro heq hfin hdecl hlen
    subst hfin
    have hpath : get_cache_path (hash (chunkHashed st sid ++ data)) =
        some (cacheDir ++ "/" ++ strTakeN (hash (chunkHashed st sid ++ data)) 2 ++ "/" ++
          strTakeN (strDropN (hash (chunkHashed st sid ++ data)) 2) 2 ++ "/" ++
          hash (chunkHashed st sid ++ data) ++ ".bin") := by
      simp [get_cache_path, Nat.not_lt.mpr hlen]
    cases hstate : alookup st.chunk_upload_states sid with
    | some s =>
      have hsz : s.size_bytes = offset := by
        simp [currentChunkSize, hstate] at heq
        exact heq.symm
      have hhashed : chunkHashed st sid = s.hashed := by
        simp [chunkHashed, hstate]
      rw [hhashed] at hpath
      refine ⟨cacheDir ++ "/" ++ strTakeN (hash (chunkHashed st sid ++ data)) 2 ++ "/" ++
        strTakeN (strDropN (hash (chunkHashed st sid ++ data)) 2) 2 ++ "/" ++
        hash (chunkHashed st sid ++ data) ++ ".bin", ?_⟩
      rcases hdecl with hd | hd
      · simp [sessionDeclaredSize, hs] at hd
        simp [resumable_upload_chunked, hs, append_chunk_data, hstate, hsz,
          finalize_chunk_upload, alookup_aset_self, hhashed, hpath, hd,
          currentChunkSize]
      · simp [sessionDeclaredSize, hs] at hd
        simp [resumable_upload_chunked, hs, append_chunk_data, hstate, hsz,
          finalize_chunk_upload, alookup_aset_self, hhashed, hpath, hd,
          currentChunkSize, chunkHashed]
    | none =>
      have hsz : offset = 0 := by
        simpa [currentChunkSize, hstate] using heq
      subst hsz
      have hhashed : chunkHashed st sid = [] := by
        simp [chunkHashed, hstate]
      rw [hhashed] at hpath
      simp only [List.nil_append] at hpath
      refine ⟨cacheDir ++ "/" ++ strTakeN (hash (chunkHashed st sid ++ data)) 2 ++ "/" ++
        strTakeN (strDropN (hash (chunkHashed st sid ++ data)) 2) 2 ++ "/" ++
        hash (chunkHashed st sid ++ data) ++ ".bin", ?_⟩
      rcases hdecl with hd | hd
      · simp [sessionDeclaredSize, hs] at hd
        simp [resumable_upload_chunked, hs, append_chunk_data, hstate,
          create_chunk_state, finalize_chunk_upload, alookup_aset_self,
          hhashed, hpath, hd, currentChunkSize]
      · simp [sessionDeclaredSize, hs] at hd
        simp [resumable_upload_chunked, hs, append_chunk_data, hstate,
          create_chunk_state, finalize_chunk_upload, alookup_aset_self,
          hhashed, hpath, hd, currentChunkSize, chunkHashed]

/-- Witness for claim C5: a PUT at offset 5 on a fresh session (0 bytes
written) answers OffsetMismatch and discards both the chunk state and the
session. -/
theorem claim5_witness :
    (alookup c5st.upload_sessions "sess1").isSome = true ∧
      5 ≠ currentChunkSize c5st "sess1" ∧
      ((resumable_upload_chunked (fun _ => "ab12") c5st "sess1" [1, 2] 5 false).1 =
          .offsetMismatch ∧
        alookup (resumable_upload_chunked (fun _ => "ab12") c5st "sess1" [1, 2] 5
            false).2.chunk_upload_states "sess1" = none ∧
        alookup (resumable_upload_chunked (fun _ => "ab12") c5st "sess1" [1, 2] 5
            false).2.upload_sessions "sess1" = none) :=
  ⟨by decide, by decide,
    (claim5_chunk_offset (fun _ => "ab12") c5st "sess1" [1, 2] 5 false (by decide)).1
      (by decide)⟩

/-! Claim C8. -/

theorem isPrefixOf_take (sig l : List Nat) (n : Nat) (h : sig.length ≤ n) :
    sig.isPrefixOf (l.take n) = sig.isPrefixOf l := by
  induction sig generalizing l n with
  | nil => simp [List.isPrefixOf]
  | cons a as ih =>
    cases l with
    | nil => simp
    | cons b bs =>
      cases n with
      | zero => simp at h
      | succ m =>
        simp only [List.take_succ_cons, List.isPrefixOf]
        rw [ih bs m (by simpa using h)]

theorem findSignature_take (sigs : List (List Nat × String)) (l : List Nat) (n : Nat)
    (h : ∀ p ∈ sigs, p.1.length ≤ n) :
    findSignature (l.take n) sigs = findSignature l sigs := by
  induction sigs with
  | nil => rfl
  | cons p t ih =>
    obtain ⟨sig, mime⟩ := p
    simp only [findSignature]
    rw [isPrefixOf_take sig l n (h (sig, mime) (List.mem_cons_self _ _))]
    split
    · rfl
    · exact ih (fun q hq => h q (List.mem_cons_of_mem _ hq))

/-- Content starting with the JPEG magic always sniffs as image/jpeg. -/
theorem detect_jpeg (t : List Nat) (zipN : Option (List String)) :
    detect_mime_type_from_content (255 :: 216 :: 255 :: t) zipN = some "image/jpeg" := by
  unfold detect_mime_type_from_content
  have h1 : ((255 :: 216 :: 255 :: t).take 8192).isEmpty = false := by
    rw [(by norm_num : (8192 : Nat) = 8191 + 1), List.take_succ_cons]
    simp [List.isEmpty]
  rw [h1]
  rw [findSignature_take magicSignatures (255 :: 216 :: 255 :: t) 8192 (by decide)]
  have hsig : findSignature (255 :: 216 :: 255 :: t) magicSignatures = some "image/jpeg" := by
    simp [findSignature, magicSignatures, List.isPrefixOf]
  rw [hsig]
  simp

/-- Claim C8, counterexample: content sniffing does say image/jpeg for the
JPEG bytes, but the mime recorded on the new cache entry of the upload with
a text/plain Content-Type header is text/plain, not image/jpeg — the header
wins over sniffing. -/
theorem claim8_counterexample :
    detect_mime_type_from_content c8bytes none = some "image/jpeg" ∧
      (alookup c8result.1.1.metadata_store c8sha).map (fun e => e.mime_type) =
        some (some "text/plain") ∧
      ¬ ((alookup c8result.1.1.metadata_store c8sha).map (fun e => e.mime_type) =
        some (some "image/jpeg")) := by
  decide

/-- Claim C8 as amended: for content starting with the JPEG magic bytes,
sniffing yields image/jpeg, but a non-octet-stream Content-Type header is
the first mime candidate, so a text/plain header is recorded as text/plain;
content sniffing decides only when the header candidate is nulled (absent,
empty or octet-stream) and no declared metadata mime exists. -/
theorem claim8_header_beats_sniffing (bytes t : List Nat) (meta : SessionMeta)
    (guess : String → Option String) (zipN : Option (List String))
    (fname : Option String) (hb : bytes = 255 :: 216 :: 255 :: t) :
    detect_mime_type_from_content bytes zipN = some "image/jpeg" ∧
      selectUploadMime guess meta (some "text/plain") bytes zipN fname = "text/plain" ∧
      ((metadata_mime_of meta = none ∨ metadata_mime_of meta = some "") →
        ∀ ct, header_mime_of ct = none →
          selectUploadMime guess meta ct bytes zipN none = "image/jpeg") := by
  subst hb
  refine ⟨detect_jpeg t zipN, ?_, ?_⟩
  · rfl
  · intro hmeta ct hct
    have hd := detect_jpeg t zipN
    unfold selectUploadMime
    rw [hct, hd]
    rcases hmeta with hm | hm <;> rw [hm] <;> rfl

/-- Witness for the amended C8 theorem at the concrete JPEG input. -/
theorem claim8_witness :
    detect_mime_type_from_content c8bytes none = some "image/jpeg" ∧
      selectUploadMime (fun _ => none) {} (some "text/plain") c8bytes none
          (some "photo.jpg") = "text/plain" :=
  ⟨(claim8_header_beats_sniffing c8bytes [224, 0, 16] {} (fun _ => none) none
      (some "photo.jpg") rfl).1,
    (claim8_header_beats_sniffing c8bytes [224, 0, 16] {} (fun _ => none) none
      (some "photo.jpg") rfl).2.1⟩

/-! Claim C9. -/

/-- Name resolution never changes the metadata store (the back-scan only
registers aliases). -/
theorem get_sha_store_eq (st : FMState) (name : String) :
    (get_sha256_by_filename st name).2.metadata_store = st.metadata_store := by
  unfold get_sha256_by_filename
  repeat' split
  all_goals rfl

/-- A failed name resolution leaves the state untouched. -/
theorem get_sha_none_eq (st : FMState) (name : String) (st1 : FMState)
    (h : get_sha256_by_filename st name = (none, st1)) : st1 = st := by
  revert h
  unfold get_sha256_by_filename
  repeat' split
  all_goals intro h
  all_goals first
    | (injection h with h1 h2; exact h2.symm)
    | (injection h with h1 h2; exact absurd h1 (by simp))

/-- files.delete_file answers 200 whatever the state and name. -/
theorem delete_file_returns_200 (st : FMState) (name : String) (now : Int) :
    (delete_file st name now).1 = 200 := by
  unfold delete_file
  repeat' split
  all_goals rfl

/-- files.get_file with no executor answer returns 404 whenever no live
entry holds a synced replica registered under exactly the queried name. -/
theorem get_file_404_of_no_match (b64 : String → Option String) (stA : FMState)
    (name : String) (now : Int)
    (h : ∀ sha2 e2, alookup stA.metadata_store sha2 = some e2 →
        findSyncedNamedValid name e2.replication_map = none) :
    (get_file b64 stA name false none now).1 =
      .error (.httpException 404 "File not found.") := by
  cases hR2 : get_sha256_by_filename stA name with
  | mk shaOpt2 st1b =>
    cases shaOpt2 with
    | none => simp [get_file, hR2, getFileMiss]
    | some sha2 =>
      have hst : st1b.metadata_store = stA.metadata_store := by
        have hh := get_sha_store_eq stA name
        rw [hR2] at hh
        exact hh
      cases hl2 : alookup st1b.metadata_store sha2 with
      | none => simp [get_file, hR2, get_metadata_entry, hl2, getFileMiss]
      | some e2 =>
        have h2 := h sha2 e2 (by rw [← hst]; exact hl2)
        simp [get_file, hR2, get_metadata_entry, hl2, h2]

/-- Claim C9: deletion is idempotent and destructive.  The hypothesis states
that no OTHER cached digest holds a synced replica under exactly the queried
name (the spec's alias-uniqueness invariant); under it, a DELETE answers
200, a subsequent GET of the same name (with no remote executor answer)
returns 404, and a second DELETE answers 200 again — as does a DELETE of a
name that was never cached, since every branch of delete_file answers 200. -/
theorem claim9_delete_get_delete (st : FMState) (name : String)
    (now1 now2 now3 : Int)
    (H : ∀ sha, (get_sha256_by_filename st name).1 = some sha →
      ∀ p ∈ st.metadata_store, p.1 ≠ sha →
        findSyncedNamedValid name p.2.replication_map = none) :
    (delete_file st name now1).1 = 200 ∧
      (get_file (fun _ => none) (delete_file st name now1).2.2 name false none now2).1 =
        .error (.httpException 404 "File not found.") ∧
      (delete_file (delete_file st name now1).2.2 name now3).1 = 200 := by
  refine ⟨delete_file_returns_200 st name now1, ?_,
    delete_file_returns_200 _ name now3⟩
  cases hR : get_sha256_by_filename st name with
  | mk shaOpt st1 =>
    cases shaOpt with
    | none =>
      have hst1 : st1 = st := get_sha_none_eq st name st1 hR
      subst hst1
      simp only [delete_file, hR]
      simp [get_file, hR, getFileMiss]
    | some sha =>
      have hH := H sha (by rw [hR])
      have hstore1 : st1.metadata_store = st.metadata_store := by
        have hh := get_sha_store_eq st name
        rw [hR] at hh
        exact hh
      cases hl : alookup st1.metadata_store sha with
      | none =>
        have hdel : (delete_file st name now1).2.2 = st1 := by
          simp [delete_file, hR, get_metadata_entry, hl]
        rw [hdel]
        apply get_file_404_of_no_match
        intro sha2 e2 h2
        by_cases hss : sha2 = sha
        · subst hss
          rw [h2] at hl
          exact absurd hl (by simp)
        · exact hH (sha2, e2) (alookup_mem _ _ _ (hstore1 ▸ h2)) hss
      | some e =>
        have hdel : (delete_file st name now1).2.2 =
            delete_entry (get_metadata_entry st1 sha now1).2 sha := by
          simp [delete_file, hR, get_metadata_entry, hl]
        have hmeta2 : (get_metadata_entry st1 sha now1).2.metadata_store =
            aset st1.metadata_store sha { e with last_accessed_at := now1 } := by
          simp [get_metadata_entry, hl]
        rw [hdel]
        apply get_file_404_of_no_match
        intro sha2 e2 h2
        by_cases hss : sha2 = sha
        · subst hss
          rw [alookup_delete_entry_self] at h2
          exact absurd h2 (by simp)
        · rw [alookup_delete_entry_ne _ _ _ hss, hmeta2,
            alookup_aset_ne _ _ _ _ hss] at h2
          exact hH (sha2, e2) (alookup_mem _ _ _ (hstore1 ▸ h2)) hss

/-- Witness for claim C9 on a concrete one-entry registry: DELETE answers
200, the following GET answers 404, the second DELETE answers 200. -/
theorem claim9_witness :
    (delete_file c9st c9name 1).1 = 200 ∧
      (get_file (fun _ => none) (delete_file c9st c9name 1).2.2 c9name false none 2).1 =
        .error (.httpException 404 "File not found.") ∧
      (delete_file (delete_file c9st c9name 1).2.2 c9name 3).1 = 200 :=
  claim9_delete_get_delete c9st c9name 1 2 3 (by
    intro sha hsha p hp hne
    have hres : (get_sha256_by_filename c9st c9name).1 = some c9sha64 := by decide
    rw [hres] at hsha
    have hs := Option.some.inj hsha
    have hp1 : p.1 ∈ List.map Prod.fst c9st.metadata_store :=
      List.mem_map_of_mem Prod.fst hp
    have hkeys : List.map Prod.fst c9st.metadata_store = [c9sha64] := by decide
    rw [hkeys] at hp1
    have hp2 : p.1 = c9sha64 := by simpa using hp1
    exact absurd (hp2.trans hs) hne)

/-! Claim C7: key and count bookkeeping lemmas. -/

theorem akeys_aset_present {V : Type} (l : List (String × V)) (k : String) (v0 v : V)
    (h : alookup l k = some v0) : (aset l k v).map Prod.fst = l.map Prod.fst := by
  induction l with
  | nil => simp [alookup] at h
  | cons p rest ih =>
    by_cases hp : p.1 = k
    · simp [aset, hp]
    · simp only [alookup, hp, if_neg hp] at h
      simp [aset, hp, ih h]

theorem not_mem_of_alookup_none {V : Type} (l : List (String × V)) (k : String)
    (h : alookup l k = none) : k ∉ l.map Prod.fst := by
  induction l with
  | nil => simp
  | cons p rest ih =>
    by_cases hp : p.1 = k
    · simp [alookup, hp] at h
    · simp only [alookup, if_neg hp] at h
      simp only [List.map_cons, List.mem_cons]
      rintro (h1 | h2)
      · exact hp h1.symm
      · exact ih h h2

theorem akeys_aset_absent {V : Type} (l : List (String × V)) (k : String) (v : V)
    (h : alookup l k = none) : (aset l k v).map Prod.fst = l.map Prod.fst ++ [k] := by
  induction l with
  | nil => simp [aset]
  | cons p rest ih =>
    by_cases hp : p.1 = k
    · simp [alookup, hp] at h
    · simp only [alookup, if_neg hp] at h
      simp [aset, hp, ih h]

theorem countKey_zero_of_not_mem {V : Type} (l : List (String × V)) (k : String)
    (h : k ∉ l.map Prod.fst) : countKey l k = 0 := by
  induction l with
  | nil => rfl
  | cons p rest ih =>
    simp only [List.map_cons, List.mem_cons] at h
    push_neg at h
    have hne : p.1 ≠ k := Ne.symm h.1
    simp [countKey, hne, ih h.2]

theorem countKey_aset_nodup {V : Type} (l : List (String × V)) (k : String) (v : V)
    (h : (l.map Prod.fst).Nodup) : countKey (aset l k v) k = 1 := by
  induction l with
  | nil => simp [aset, countKey]
  | cons p rest ih =>
    simp only [List.map_cons, List.nodup_cons] at h
    by_cases hp : p.1 = k
    · have hz : countKey rest k = 0 :=
        countKey_zero_of_not_mem rest k (hp ▸ h.1)
      simp [aset, hp, countKey, hz]
    · simp [aset, hp, countKey, ih h.2]

theorem mem_keys_aremove_sub {V : Type} (l : List (String × V)) (k x : String)
    (h : x ∈ (aremove l k).map Prod.fst) : x ∈ l.map Prod.fst := by
  induction l with
  | nil => simpa [aremove] using h
  | cons p rest ih =>
    by_cases hp : p.1 = k
    · simp only [aremove, if_pos hp] at h
      exact List.mem_cons_of_mem _ (ih h)
    · simp only [aremove, if_neg hp, List.map_cons, List.mem_cons] at h
      rcases h with h1 | h2
      · simp [h1]
      · exact List.mem_cons_of_mem _ (ih h2)

theorem nodup_keys_aremove {V : Type} (l : List (String × V)) (k : String)
    (h : (l.map Prod.fst).Nodup) : ((aremove l k).map Prod.fst).Nodup := by
  induction l with
  | nil => simpa [aremove] using h
  | cons p rest ih =>
    simp only [List.map_cons, List.nodup_cons] at h
    by_cases hp : p.1 = k
    · simp only [aremove, if_pos hp]
      exact ih h.2
    · simp only [aremove, if_neg hp, List.map_cons, List.nodup_cons]
      exact ⟨fun hm => h.1 (mem_keys_aremove_sub rest k p.1 hm), ih h.2⟩

theorem nodup_keys_aset {V : Type} (l : List (String × V)) (k : String) (v : V)
    (h : (l.map Prod.fst).Nodup) : ((aset l k v).map Prod.fst).Nodup := by
  cases hl : alookup l k with
  | none =>
    rw [akeys_aset_absent l k v hl]
    have hk := not_mem_of_alookup_none l k hl
    simp [List.nodup_append, h, hk]
  | some v0 => rw [akeys_aset_present l k v0 v hl]; exact h

theorem get_cache_path_eq (sha : String) (h : ¬ sha.length < 4) :
    get_cache_path sha = some (cachePathFull sha) := by
  simp [get_cache_path, cachePathFull, h]

/-- get_metadata_entry only touches the metadata store. -/
theorem get_meta_frame (st : FMState) (sha : String) (now : Int) :
    (get_metadata_entry st sha now).2.disk = st.disk ∧
      (get_metadata_entry st sha now).2.upload_sessions = st.upload_sessions ∧
      (get_metadata_entry st sha now).2.reverse_mapping = st.reverse_mapping ∧
      (get_metadata_entry st sha now).2.chunk_upload_states = st.chunk_upload_states := by
  cases h : alookup st.metadata_store sha <;> simp [get_metadata_entry, h]

/-- get_metadata_entry preserves the store keys. -/
theorem get_meta_keys (st : FMState) (sha : String) (now : Int) :
    (get_metadata_entry st sha now).2.metadata_store.map Prod.fst =
      st.metadata_store.map Prod.fst := by
  cases h : alookup st.metadata_store sha with
  | none => simp [get_metadata_entry, h]
  | some e =>
    simp only [get_metadata_entry, h]
    exact akeys_aset_present _ _ _ _ h

/-- update_replication_status only touches the store and reverse mapping. -/
theorem update_repl_frame (st : FMState) (sha client status : String)
    (gf : Option GeminiFile) (now : Int) :
    (update_replication_status st sha client status gf now).disk = st.disk ∧
      (update_replication_status st sha client status gf now).upload_sessions =
        st.upload_sessions ∧
      (update_replication_status st sha client status gf now).chunk_upload_states =
        st.chunk_upload_states := by
  cases h : alookup st.metadata_store sha with
  | none => simp [update_replication_status, get_metadata_entry, h]
  | some e =>
    cases gf with
    | none => simp [update_replication_status, get_metadata_entry, h]
    | some g =>
      cases hn : g.name <;>
        simp [update_replication_status, get_metadata_entry, h, hn]

/-- update_replication_status preserves the store keys. -/
theorem update_repl_keys (st : FMState) (sha client status : String)
    (gf : Option GeminiFile) (now : Int) :
    (update_replication_status st sha client status gf now).metadata_store.map Prod.fst =
      st.metadata_store.map Prod.fst := by
  cases h : alookup st.metadata_store sha with
  | none => simp [update_replication_status, get_metadata_entry, h]
  | some e =>
    have hb : alookup (aset st.metadata_store sha { e with last_accessed_at := now }) sha =
        some { e with last_accessed_at := now } := alookup_aset_self _ _ _
    cases gf with
    | none =>
      simp only [update_replication_status, get_metadata_entry, h]
      rw [akeys_aset_present _ _ _ _ hb, akeys_aset_present _ _ _ _ h]
    | some g =>
      cases hn : g.name <;>
        (simp only [update_replication_status, get_metadata_entry, h, hn]
         rw [akeys_aset_present _ _ _ _ hb, akeys_aset_present _ _ _ _ h])

/-- update_replication_status leaves every other digest unchanged. -/
theorem update_repl_lookup_other (st : FMState) (sha client status : String)
    (gf : Option GeminiFile) (now : Int) (k : String) (hk : k ≠ sha) :
    alookup (update_replication_status st sha client status gf now).metadata_store k =
      alookup st.metadata_store k := by
  cases h : alookup st.metadata_store sha with
  | none => simp [update_replication_status, get_metadata_entry, h]
  | some e =>
    cases gf with
    | none =>
      simp only [update_replication_status, get_metadata_entry, h]
      rw [alookup_aset_ne _ _ _ _ hk, alookup_aset_ne _ _ _ _ hk]
    | some g =>
      cases hn : g.name <;>
        (simp only [update_replication_status, get_metadata_entry, h, hn]
         rw [alookup_aset_ne _ _ _ _ hk, alookup_aset_ne _ _ _ _ hk])

/-- The entry written by a pending-status update without a descriptor. -/
theorem update_repl_lookup_pending (st : FMState) (sha client status : String)
    (now : Int) (e : FileCacheEntry) (h : alookup st.metadata_store sha = some e) :
    alookup (update_replication_status st sha client status none now).metadata_store sha =
      some
        { e with
          last_accessed_at := now,
          replication_map := aset e.replication_map client { status := status } } := by
  simp only [update_replication_status, get_metadata_entry, h]
  exact alookup_aset_self _ _ _

/-- The entry written by a synced-status update with a descriptor. -/
theorem update_repl_lookup_synced (st : FMState) (sha client status : String)
    (g : GeminiFile) (now : Int) (e : FileCacheEntry)
    (h : alookup st.metadata_store sha = some e) :
    alookup (update_replication_status st sha client status (some g) now).metadata_store sha =
      some
        { e with
          last_accessed_at := now,
          replication_map :=
            aset e.replication_map client { status := status, file := some g },
          gemini_file_expiration :=
            if e.gemini_file_expiration.isNone then g.expirationTime
            else e.gemini_file_expiration } := by
  cases hn : g.name <;>
    (simp only [update_replication_status, get_metadata_entry, h, hn]
     exact alookup_aset_self _ _ _)

/-- get_next_client on a registry whose cursor is in range. -/
theorem get_next_client_ok (reg : RegistryState) (client : String)
    (hne : reg.client_ids ≠ [])
    (hclient : reg.client_ids[reg.next_index]? = some client) :
    get_next_client reg =
      .ok (client, { reg with next_index := (reg.next_index + 1) % reg.client_ids.length }) := by
  have hemp : reg.client_ids.isEmpty = false := by
    cases hc : reg.client_ids with
    | nil => exact absurd hc hne
    | cons a t => rfl
  simp [get_next_client, hemp, hclient]

/-- Successful run of _upload_file_via_client: the state goes through the
pending and synced updates and the descriptor is returned. -/
theorem upload_file_via_client_success (env : UploadEnv) (st : FMState)
    (sha client : String) (now : Int) (e : FileCacheEntry) (bs : List Nat)
    (gf : GeminiFile)
    (hmeta : alookup st.metadata_store sha = some e)
    (hdisk : alookup st.disk e.local_path = some bs)
    (henv : env.uploadViaClient sha client = some gf) :
    upload_file_via_client env st sha client now =
      (update_replication_status
        (update_replication_status (get_metadata_entry st sha now).2 sha client
          "pending_replication" none now)
        sha client "synced" (some gf) now, .ok gf) := by
  have hdk : (update_replication_status (get_metadata_entry st sha now).2 sha client
      "pending_replication" none now).disk = st.disk := by
    rw [(update_repl_frame _ _ _ _ _ _).1, (get_meta_frame st sha now).1]
  have hlook :
      alookup (update_replication_status (get_metadata_entry st sha now).2 sha client
        "pending_replication" none now).disk e.local_path = some bs := by
    rw [hdk]; exact hdisk
  simp only [upload_file_via_client, get_metadata_entry, hmeta] at hlook ⊢
  rw [hlook]
  simp [henv]

/-- Successful run of _synchronously_rebuild_file: round-robin pick then the
two-phase replication update. -/
theorem sync_rebuild_success (env : UploadEnv) (st : FMState) (reg : RegistryState)
    (sha : String) (now : Int) (client : String) (e : FileCacheEntry)
    (bs : List Nat) (gf : GeminiFile)
    (hne : reg.client_ids ≠ [])
    (hclient : reg.client_ids[reg.next_index]? = some client)
    (hmeta : alookup st.metadata_store sha = some e)
    (hdisk : alookup st.disk e.local_path = some bs)
    (henv : env.uploadViaClient sha client = some gf) :
    synchronously_rebuild_file env st reg sha now =
      ((update_replication_status
          (update_replication_status (get_metadata_entry st sha now).2 sha client
            "pending_replication" none now)
          sha client "synced" (some gf) now,
        { reg with next_index := (reg.next_index + 1) % reg.client_ids.length }),
        .ok (gf, client)) := by
  simp [synchronously_rebuild_file, get_next_client_ok reg client hne hclient,
    upload_file_via_client_success env st sha client now e bs gf hmeta hdisk henv]

/-- The entry held by get_metadata_entry after a hit: the stored entry with a
bumped access time. -/
theorem get_meta_lookup (st : FMState) (sha : String) (now : Int) (e : FileCacheEntry)
    (h : alookup st.metadata_store sha = some e) :
    alookup (get_metadata_entry st sha now).2.metadata_store sha =
      some { e with last_accessed_at := now } := by
  simp only [get_metadata_entry, h]
  exact alookup_aset_self _ _ _

/-- _upload_file_via_client preserves the metadata-store keys in every
branch. -/
theorem upload_via_client_keys (env : UploadEnv) (st : FMState) (sha client : String)
    (now : Int) :
    (upload_file_via_client env st sha client now).1.metadata_store.map Prod.fst =
      st.metadata_store.map Prod.fst := by
  have hg := get_meta_keys st sha now
  rcases hge : get_metadata_entry st sha now with ⟨o, st1⟩
  rw [hge] at hg
  cases o with
  | none =>
    simp only [upload_file_via_client, hge]
    exact hg
  | some e =>
    simp only [upload_file_via_client, hge]
    cases hd : alookup
        (update_replication_status st1 sha client "pending_replication" none now).disk
        e.local_path with
    | none =>
      simp only [hd]
      rw [update_repl_keys, update_repl_keys]
      exact hg
    | some bs =>
      cases he : env.uploadViaClient sha client with
      | none =>
        simp only [hd, he]
        rw [update_repl_keys, update_repl_keys]
        exact hg
      | some g =>
        simp only [hd, he]
        rw [update_repl_keys, update_repl_keys]
        exact hg

/-- _upload_file_via_client never touches the blob store. -/
theorem upload_via_client_disk (env : UploadEnv) (st : FMState) (sha client : String)
    (now : Int) :
    (upload_file_via_client env st sha client now).1.disk = st.disk := by
  have hg := (get_meta_frame st sha now).1
  rcases hge : get_metadata_entry st sha now with ⟨o, st1⟩
  rw [hge] at hg
  cases o with
  | none =>
    simp only [upload_file_via_client, hge]
    exact hg
  | some e =>
    simp only [upload_file_via_client, hge]
    cases hd : alookup
        (update_replication_status st1 sha client "pending_replication" none now).disk
        e.local_path with
    | none =>
      simp only [hd]
      rw [(update_repl_frame _ _ _ _ _ _).1, (update_repl_frame _ _ _ _ _ _).1]
      exact hg
    | some bs =>
      cases he : env.uploadViaClient sha client with
      | none =>
        simp only [hd, he]
        rw [(update_repl_frame _ _ _ _ _ _).1, (update_repl_frame _ _ _ _ _ _).1]
        exact hg
      | some g =>
        simp only [hd, he]
        rw [(update_repl_frame _ _ _ _ _ _).1, (update_repl_frame _ _ _ _ _ _).1]
        exact hg

/-- The create branch of _process_cached_file_upload on a fresh digest with a
live executor: the call answers the executor descriptor, appends exactly the
new digest to the store keys, leaves the blob store alone, and the written
entry carries a synced replica that the dedup scan of a later call accepts. -/
theorem process_fresh_success (env : UploadEnv) (menv : MimeEnv) (st : FMState)
    (reg : RegistryState) (sha path : String) (sizeBytes : Nat) (meta : SessionMeta)
    (fnHint ct : Option String) (now : Int) (client : String) (gf : GeminiFile)
    (n : String) (bs : List Nat)
    (hfresh : alookup st.metadata_store sha = none)
    (hcontent : alookup st.disk path = some bs)
    (hne : reg.client_ids ≠ [])
    (hclient : reg.client_ids[reg.next_index]? = some client)
    (henv : env.uploadViaClient sha client = some gf)
    (hname : gf.name = some n)
    (hvalid : validFile gf = true)
    (hverify : ∀ m c, env.verifyRemote m c = none) :
    (process_cached_file_upload env menv st reg sha path sizeBytes meta none fnHint ct now).2 =
      .ok gf ∧
    (process_cached_file_upload env menv st reg sha path sizeBytes meta none fnHint ct
        now).1.1.metadata_store.map Prod.fst =
      st.metadata_store.map Prod.fst ++ [sha] ∧
    (process_cached_file_upload env menv st reg sha path sizeBytes meta none fnHint ct
        now).1.1.disk = st.disk ∧
    ∃ e,
      alookup (process_cached_file_upload env menv st reg sha path sizeBytes meta none
        fnHint ct now).1.1.metadata_store sha = some e ∧
      findSyncedWithName e.replication_map = some gf := by
  have hg0 : get_metadata_entry st sha now = (none, st) := by
    simp [get_metadata_entry, hfresh]
  obtain ⟨entry, st2, hC⟩ : ∃ p1 p2,
      create_metadata_entry st sha path (uploadFinalFilename menv meta fnHint ct bs sha)
        (some (uploadFinalMime menv meta ct bs fnHint)) sizeBytes now = (p1, p2) :=
    ⟨_, _, rfl⟩
  have hent : (create_metadata_entry st sha path
      (uploadFinalFilename menv meta fnHint ct bs sha)
      (some (uploadFinalMime menv meta ct bs fnHint)) sizeBytes now).1 = entry :=
    congrArg Prod.fst hC
  have hst2 : (create_metadata_entry st sha path
      (uploadFinalFilename menv meta fnHint ct bs sha)
      (some (uploadFinalMime menv meta ct bs fnHint)) sizeBytes now).2 = st2 :=
    congrArg Prod.snd hC
  have hst2m : st2.metadata_store = aset st.metadata_store sha entry := by
    rw [← hst2, ← hent]
    rfl
  have hst2d : st2.disk = st.disk := by
    rw [← hst2]
    rfl
  have hentl : entry.local_path = path := by
    rw [← hent]
    rfl
  have hentrm : entry.replication_map = [] := by
    rw [← hent]
    rfl
  have hmetaB2 : alookup st2.metadata_store sha = some entry := by
    rw [hst2m]
    exact alookup_aset_self _ _ _
  have hdiskB2 : alookup st2.disk entry.local_path = some bs := by
    rw [hst2d, hentl]
    exact hcontent
  have hupc := upload_file_via_client_success env st2 sha client now entry bs gf
    hmetaB2 hdiskB2 henv
  have hsync : synchronously_rebuild_file env st2 reg sha now =
      (((upload_file_via_client env st2 sha client now).1,
        { reg with next_index := (reg.next_index + 1) % reg.client_ids.length }),
        .ok (gf, client)) := by
    simp only [synchronously_rebuild_file, get_next_client_ok reg client hne hclient, hupc]
  have hred : process_cached_file_upload env menv st reg sha path sizeBytes meta none
      fnHint ct now =
      (((upload_file_via_client env st2 sha client now).1,
        { reg with next_index := (reg.next_index + 1) % reg.client_ids.length }),
        .ok gf) := by
    by_cases hn0 : n = ""
    · have hst : strTruthy gf.name = none := by
        rw [hname]
        simp [strTruthy, hn0]
      simp only [process_cached_file_upload, hg0, hcontent, Option.getD_some, hC, hsync,
        hst]
      simp [build_file_response, hvalid]
    · have hst : strTruthy gf.name = some n := by
        rw [hname]
        simp [strTruthy, hn0]
      simp only [process_cached_file_upload, hg0, hcontent, Option.getD_some, hC, hsync,
        hst, hverify]
      simp [build_file_response, hvalid]
  refine ⟨?_, ?_, ?_, ?_⟩
  · rw [hred]
  · rw [hred]
    exact (upload_via_client_keys env st2 sha client now).trans
      (by rw [hst2m]; exact akeys_aset_absent _ _ _ hfresh)
  · rw [hred]
    exact (upload_via_client_disk env st2 sha client now).trans hst2d
  · have hs1 : (process_cached_file_upload env menv st reg sha path sizeBytes meta none
        fnHint ct now).1.1 =
        update_replication_status
          (update_replication_status (get_metadata_entry st2 sha now).2 sha client
            "pending_replication" none now)
          sha client "synced" (some gf) now := by
      rw [hred, hupc]
    have hl1 := get_meta_lookup st2 sha now entry hmetaB2
    have hl2 := update_repl_lookup_pending _ sha client "pending_replication" now _ hl1
    have hl3 := update_repl_lookup_synced _ sha client "synced" gf now _ hl2
    exact ⟨_, hs1.symm ▸ hl3,
      by simp [hentrm, aset, findSyncedWithName, rdName, hname, hvalid]⟩

/-- The dedup branch of _process_cached_file_upload: a cached digest whose
replication map carries an acceptable synced replica is answered from the
cache, with no new store key and no blob-store change. -/
theorem process_dedup (env : UploadEnv) (menv : MimeEnv) (st : FMState)
    (reg : RegistryState) (sha path : String) (sizeBytes : Nat) (meta : SessionMeta)
    (fnHint ct : Option String) (now : Int) (e : FileCacheEntry) (gf : GeminiFile)
    (hlook : alookup st.metadata_store sha = some e)
    (hfind : findSyncedWithName e.replication_map = some gf) :
    (process_cached_file_upload env menv st reg sha path sizeBytes meta none fnHint ct now).2 =
      .ok gf ∧
    (process_cached_file_upload env menv st reg sha path sizeBytes meta none fnHint ct
        now).1.1.metadata_store.map Prod.fst = st.metadata_store.map Prod.fst ∧
    (process_cached_file_upload env menv st reg sha path sizeBytes meta none fnHint ct
        now).1.1.disk = st.disk := by
  have hg : get_metadata_entry st sha now =
      (some { e with last_accessed_at := now },
        { st with
          metadata_store := aset st.metadata_store sha { e with last_accessed_at := now } }) := by
    simp [get_metadata_entry, hlook]
  have hfind2 : findSyncedWithName
      ({ e with last_accessed_at := now } : FileCacheEntry).replication_map = some gf :=
    hfind
  refine ⟨?_, ?_, ?_⟩
  · simp only [process_cached_file_upload, hg, hfind, hfind2]
  · simp only [process_cached_file_upload, hg, hfind, hfind2]
    exact akeys_aset_present _ _ _ _ hlook
  · simp only [process_cached_file_upload, hg, hfind, hfind2]

/-! Claim C7. -/

/-- Claim C7: upload is idempotent on content.  For identical bytes uploaded
twice through the whole pipeline (fresh digest, one live executor answering a
valid descriptor, no files.get refresh), the first upload answers the
executor descriptor and appends exactly the new digest to the metadata-store
keys; the second upload of the same bytes computes the same digest, answers
the very same descriptor (hence the same name) from the dedup branch,
creates no new metadata entry, leaves exactly one blob under the digest path,
and leaves no staging file behind. -/
theorem claim7_upload_idempotent (hash : List Nat → String) (env : UploadEnv)
    (menv : MimeEnv) (fm : FMState) (reg : RegistryState) (bytes : List Nat)
    (filename : String) (meta : SessionMeta) (ct : Option String) (now : Int)
    (client : String) (gfU : GeminiFile) (n : String)
    (hfresh : alookup fm.metadata_store (hash bytes) = none)
    (hlen : ¬ (hash bytes).length < 4)
    (hnodup : (fm.disk.map Prod.fst).Nodup)
    (hne : reg.client_ids ≠ [])
    (hclient : reg.client_ids[reg.next_index]? = some client)
    (henv : env.uploadViaClient (hash bytes) client = some gfU)
    (hname : gfU.name = some n)
    (hvalid : validFile gfU = true)
    (hverify : ∀ m c, env.verifyRemote m c = none)
    (hmeta : meta.size_bytes = none)
    (htemp : tempPath filename ≠ cachePathFull (hash bytes)) :
    ∀ fm1 reg1 r1 fm2 reg2 r2,
      uploadBytes hash env menv fm reg bytes filename meta none ct none now =
        ((fm1, reg1), r1) →
      uploadBytes hash env menv fm1 reg1 bytes filename meta none ct none now =
        ((fm2, reg2), r2) →
      r1 = .ok gfU ∧
        fm1.metadata_store.map Prod.fst = fm.metadata_store.map Prod.fst ++ [hash bytes] ∧
        r2 = .ok gfU ∧
        fm2.metadata_store.map Prod.fst = fm1.metadata_store.map Prod.fst ∧
        countKey fm2.disk (cachePathFull (hash bytes)) = 1 ∧
        alookup fm2.disk (tempPath filename) = none := by
  intro fm1 reg1 r1 fm2 reg2 r2 hR1 hR2
  have hsave : ∀ s : FMState, save_stream_to_cache hash s bytes filename =
      ({ s with
          disk := aset (aremove (aset s.disk (tempPath filename) bytes)
            (tempPath filename)) (cachePathFull (hash bytes)) bytes },
        .ok (hash bytes, cachePathFull (hash bytes), bytes.length)) := by
    intro s
    simp [save_stream_to_cache, get_cache_path_eq (hash bytes) hlen]
  have hup : ∀ (s : FMState) (r : RegistryState),
      uploadBytes hash env menv s r bytes filename meta none ct none now =
        process_cached_file_upload env menv
          { s with
            disk := aset (aremove (aset s.disk (tempPath filename) bytes)
              (tempPath filename)) (cachePathFull (hash bytes)) bytes }
          r (hash bytes) (cachePathFull (hash bytes)) bytes.length meta none
          (some filename) ct now := by
    intro s r
    simp [uploadBytes, hsave s, hmeta]
  rw [hup fm reg] at hR1
  have hP1 := process_fresh_success env menv
    { fm with
      disk := aset (aremove (aset fm.disk (tempPath filename) bytes)
        (tempPath filename)) (cachePathFull (hash bytes)) bytes }
    reg (hash bytes) (cachePathFull (hash bytes)) bytes.length meta (some filename) ct
    now client gfU n bytes hfresh (alookup_aset_self _ _ _) hne hclient henv hname
    hvalid hverify
  rw [hR1] at hP1
  dsimp only at hP1
  obtain ⟨h1, h2, h3, e, he1, he2⟩ := hP1
  rw [hup fm1 reg1] at hR2
  have hP2 := process_dedup env menv
    { fm1 with
      disk := aset (aremove (aset fm1.disk (tempPath filename) bytes)
        (tempPath filename)) (cachePathFull (hash bytes)) bytes }
    reg1 (hash bytes) (cachePathFull (hash bytes)) bytes.length meta (some filename) ct
    now e gfU he1 he2
  rw [hR2] at hP2
  dsimp only at hP2
  obtain ⟨h4, h5, h6⟩ := hP2
  have hnd1 : (fm1.disk.map Prod.fst).Nodup := by
    rw [h3]
    exact nodup_keys_aset _ _ _ (nodup_keys_aremove _ _ (nodup_keys_aset _ _ _ hnodup))
  refine ⟨h1, h2, h4, h5, ?_, ?_⟩
  · rw [h6]
    exact countKey_aset_nodup _ _ _
      (nodup_keys_aremove _ _ (nodup_keys_aset _ _ _ hnd1))
  · rw [h6, alookup_aset_ne _ _ _ _ htemp, alookup_aremove_self]

/-- Witness for C7 at a concrete trace: empty cache, one executor, three
bytes uploaded twice. -/
theorem claim7_witness :
    c7round1.2 = .ok c7gf ∧
      c7round1.1.1.metadata_store.map Prod.fst =
        ({} : FMState).metadata_store.map Prod.fst ++ [c7hash c7bytes] ∧
      c7round2.2 = .ok c7gf ∧
      c7round2.1.1.metadata_store.map Prod.fst =
        c7round1.1.1.metadata_store.map Prod.fst ∧
      countKey c7round2.1.1.disk (cachePathFull (c7hash c7bytes)) = 1 ∧
      alookup c7round2.1.1.disk (tempPath "f.bin") = none :=
  claim7_upload_idempotent c7hash c7env c7menv {} c7reg c7bytes "f.bin" {} none 0 "X"
    c7gf "files/remote-c7" rfl (by decide) (by decide) (by decide) (by decide) rfl rfl
    rfl (fun m c => rfl) rfl (by decide)
    c7round1.1.1 c7round1.1.2 c7round1.2 c7round2.1.1 c7round2.1.2 c7round2.2 rfl rfl

/-- A successful _rewrite_file_references run: each reference resolves a
synced replica on the client and is rewritten to its uri, falling back to
the remote name (left untouched only when the replica carries neither). -/
theorem rewrite_ok_forall (st : FMState) (client : String) :
    ∀ (refs : List (String × FileDict)) (rlist : List FileDict),
      rewrite_file_references st client refs = .ok rlist →
      List.Forall₂
        (fun (p : String × FileDict) (o : FileDict) => ∃ d,
          replicaFor st p.1 client = some d ∧ d.status = "synced" ∧
          ((finalUriFor d = none ∧ o = p.2) ∨
            ∃ u, finalUriFor d = some u ∧ o = { fileUri := some u }))
        refs rlist := by
  intro refs
  induction refs with
  | nil =>
    intro rlist h
    simp only [rewrite_file_references] at h
    cases h
    exact List.Forall₂.nil
  | cons p rest ih =>
    intro rlist h
    obtain ⟨sha, fd⟩ := p
    simp only [rewrite_file_references] at h
    cases hd : replicaFor st sha client with
    | none =>
      simp only [hd] at h
      exact absurd h (by simp)
    | some d =>
      simp only [hd] at h
      by_cases hs : d.status = "synced"
      · have hns : ¬ d.status ≠ "synced" := fun hh => hh hs
        rw [if_neg hns] at h
        cases hu : finalUriFor d with
        | none =>
          simp only [hu] at h
          cases hrec : rewrite_file_references st client rest with
          | error e =>
            simp only [hrec] at h
            exact absurd h (by simp)
          | ok rlist1 =>
            simp only [hrec] at h
            cases h
            exact List.Forall₂.cons ⟨d, hd, hs, Or.inl ⟨hu, rfl⟩⟩ (ih rlist1 hrec)
        | some u =>
          simp only [hu] at h
          cases hrec : rewrite_file_references st client rest with
          | error e =>
            simp only [hrec] at h
            exact absurd h (by simp)
          | ok rlist1 =>
            simp only [hrec] at h
            cases h
            exact List.Forall₂.cons ⟨d, hd, hs, Or.inr ⟨u, hu, rfl⟩⟩ (ih rlist1 hrec)
      · rw [if_pos hs] at h
        exact absurd h (by simp)

/-- A successful rewrite forces every referenced digest to be synced on the
chosen client. -/
theorem rewrite_ok_synced (st : FMState) (client : String) :
    ∀ (refs : List (String × FileDict)) (rlist : List FileDict),
      rewrite_file_references st client refs = .ok rlist →
      ∀ r ∈ refs, is_client_synced st r.1 client = true := by
  intro refs
  induction refs with
  | nil =>
    intro rlist h r hr
    exact absurd hr (List.not_mem_nil r)
  | cons p rest ih =>
    intro rlist h r hr
    obtain ⟨sha, fd⟩ := p
    simp only [rewrite_file_references] at h
    cases hd : replicaFor st sha client with
    | none =>
      simp only [hd] at h
      exact absurd h (by simp)
    | some d =>
      simp only [hd] at h
      by_cases hs : d.status = "synced"
      · have hns : ¬ d.status ≠ "synced" := fun hh => hh hs
        rw [if_neg hns] at h
        rcases List.mem_cons.mp hr with hr1 | hr2
        · subst hr1
          simp [is_client_synced, hd, hs]
        · cases hu : finalUriFor d with
          | none =>
            simp only [hu] at h
            cases hrec : rewrite_file_references st client rest with
            | error e =>
              simp only [hrec] at h
              exact absurd h (by simp)
            | ok rlist1 =>
              exact ih rlist1 hrec r hr2
          | some u =>
            simp only [hu] at h
            cases hrec : rewrite_file_references st client rest with
            | error e =>
              simp only [hrec] at h
              exact absurd h (by simp)
            | ok rlist1 =>
              exact ih rlist1 hrec r hr2
      · rw [if_pos hs] at h
        exact absurd h (by simp)

/-- Every client in the scan accumulator output was either accumulated
before or scanned. -/
theorem sbf_sub (st : FMState) (required : List String) :
    ∀ (l : List String) (b : Option Nat) (bc : List String) (c : String),
      c ∈ (select_best_fold st required l b bc).2 → c ∈ bc ∨ c ∈ l := by
  intro l
  induction l with
  | nil =>
    intro b bc c hc
    exact Or.inl hc
  | cons a rest ih =>
    intro b bc c hc
    cases b with
    | none =>
      simp only [select_best_fold] at hc
      rcases ih _ _ _ hc with h | h
      · simp only [List.mem_singleton] at h
        subst h
        exact Or.inr (List.mem_cons_self _ _)
      · exact Or.inr (List.mem_cons_of_mem _ h)
    | some bv =>
      simp only [select_best_fold] at hc
      by_cases h1 : (collect_missing st required a).length < bv
      · rw [if_pos h1] at hc
        rcases ih _ _ _ hc with h | h
        · simp only [List.mem_singleton] at h
          subst h
          exact Or.inr (List.mem_cons_self _ _)
        · exact Or.inr (List.mem_cons_of_mem _ h)
      · rw [if_neg h1] at hc
        by_cases h2 : (collect_missing st required a).length = bv
        · rw [if_pos h2] at hc
          rcases ih _ _ _ hc with h | h
          · rcases List.mem_append.mp h with h3 | h3
            · exact Or.inl h3
            · simp only [List.mem_singleton] at h3
              subst h3
              exact Or.inr (List.mem_cons_self _ _)
          · exact Or.inr (List.mem_cons_of_mem _ h)
        · rw [if_neg h2] at hc
          rcases ih _ _ _ hc with h | h
          · exact Or.inl h
          · exact Or.inr (List.mem_cons_of_mem _ h)

/-- Invariant of the _select_best_client scan loop: given an accumulator of
clients all achieving the current best count, the loop answers the least
count over the accumulator and the remaining scan, and the best list holds
exactly the clients achieving it (completely for scanned clients). -/
theorem sbf_spec (st : FMState) (required : List String) :
    ∀ (l : List String) (b : Nat) (bc : List String),
      bc ≠ [] →
      (∀ c ∈ bc, (collect_missing st required c).length = b) →
      ∃ b2 bc2,
        select_best_fold st required l (some b) bc = (some b2, bc2) ∧
        bc2 ≠ [] ∧
        b2 ≤ b ∧
        (∀ c ∈ l, b2 ≤ (collect_missing st required c).length) ∧
        (∀ c ∈ bc2, (collect_missing st required c).length = b2) ∧
        (∀ c ∈ l, (collect_missing st required c).length = b2 → c ∈ bc2) ∧
        (b2 = b → ∀ c ∈ bc, c ∈ bc2) := by
  intro l
  induction l with
  | nil =>
    intro b bc hne hcnt
    exact ⟨b, bc, rfl, hne, le_refl b, by simp, hcnt, by simp, fun _ c hc => hc⟩
  | cons a rest ih =>
    intro b bc hne hcnt
    by_cases h1 : (collect_missing st required a).length < b
    · obtain ⟨b2, bc2, heq, hne2, hle, hmin, hcnt2, hcompl, hcompbc⟩ :=
        ih (collect_missing st required a).length [a] (by simp)
          (by
            intro c hc
            simp only [List.mem_singleton] at hc
            subst hc
            rfl)
      refine ⟨b2, bc2, ?_, hne2, ?_, ?_, hcnt2, ?_, ?_⟩
      · simp only [select_best_fold, if_pos h1]
        exact heq
      · omega
      · intro c hc
        rcases List.mem_cons.mp hc with h | h
        · subst h
          exact hle
        · exact hmin c h
      · intro c hc hcm
        rcases List.mem_cons.mp hc with h | h
        · subst h
          exact hcompbc hcm.symm c (by simp)
        · exact hcompl c h hcm
      · intro hb2
        omega
    · by_cases h2 : (collect_missing st required a).length = b
      · obtain ⟨b2, bc2, heq, hne2, hle, hmin, hcnt2, hcompl, hcompbc⟩ :=
          ih b (bc ++ [a]) (by simp)
            (by
              intro c hc
              rcases List.mem_append.mp hc with h | h
              · exact hcnt c h
              · simp only [List.mem_singleton] at h
                subst h
                exact h2)
        refine ⟨b2, bc2, ?_, hne2, hle, ?_, hcnt2, ?_, ?_⟩
        · simp only [select_best_fold, if_neg h1, if_pos h2]
          exact heq
        · intro c hc
          rcases List.mem_cons.mp hc with h | h
          · subst h
            omega
          · exact hmin c h
        · intro c hc hcm
          rcases List.mem_cons.mp hc with h | h
          · subst h
            exact hcompbc (by omega) c (List.mem_append_right _ (by simp))
          · exact hcompl c h hcm
        · intro hb2 c hc
          exact hcompbc hb2 c (List.mem_append_left _ hc)
      · obtain ⟨b2, bc2, heq, hne2, hle, hmin, hcnt2, hcompl, hcompbc⟩ := ih b bc hne hcnt
        refine ⟨b2, bc2, ?_, hne2, hle, ?_, hcnt2, ?_, hcompbc⟩
        · simp only [select_best_fold, if_neg h1, if_neg h2]
          exact heq
        · intro c hc
          rcases List.mem_cons.mp hc with h | h
          · subst h
            omega
          · exact hmin c h
        · intro c hc hcm
          rcases List.mem_cons.mp hc with h | h
          · subst h
            omega
          · exact hcompl c h hcm

/-- _select_best_client on a nonempty active list: answers the selected
client together with its missing list and the preferred client missing
list; the selected client is active with the least missing count, and the
preferred client is chosen whenever it achieves the least count. -/
theorem select_best_client_spec (st : FMState) (required : List String)
    (active : List String) (preferred : String) (pick : List String → String)
    (hactive : active ≠ [])
    (hpick : ∀ l, l ≠ [] → pick l ∈ l) :
    ∃ sel,
      select_best_client st required active preferred pick =
        .ok (sel, collect_missing st required sel, collect_missing st required preferred) ∧
      sel ∈ active ∧
      (∀ c ∈ active,
        (collect_missing st required sel).length ≤
          (collect_missing st required c).length) ∧
      (preferred ∈ active →
        (∀ c ∈ active,
          (collect_missing st required preferred).length ≤
            (collect_missing st required c).length) →
        sel = preferred) := by
  cases active with
  | nil => exact absurd rfl hactive
  | cons a rest =>
  obtain ⟨b2, bc2, heq, hne2, hle, hmin, hcnt2, hcompl, hcompbc⟩ :=
    sbf_spec st required rest (collect_missing st required a).length [a] (by simp)
      (by
        intro c hc
        simp only [List.mem_singleton] at hc
        subst hc
        rfl)
  have hfold : select_best_fold st required (a :: rest) none [] = (some b2, bc2) := by
    simp only [select_best_fold]
    exact heq
  have hbc2sub : ∀ c ∈ bc2, c ∈ a :: rest := by
    intro c hc
    have hs := sbf_sub st required rest
      (some (collect_missing st required a).length) [a] c (by rw [heq]; exact hc)
    rcases hs with h | h
    · simp only [List.mem_singleton] at h
      subst h
      exact List.mem_cons_self _ _
    · exact List.mem_cons_of_mem _ h
  have hbe : bc2.isEmpty = false := by
    cases bc2 with
    | nil => exact absurd rfl hne2
    | cons x xs => rfl
  have hselbc : (if bc2.contains preferred then preferred else pick bc2) ∈ bc2 := by
    by_cases hc : bc2.contains preferred
    · rw [if_pos hc]
      exact List.mem_of_elem_eq_true hc
    · rw [if_neg hc]
      exact hpick bc2 hne2
  refine ⟨if bc2.contains preferred then preferred else pick bc2, ?_, ?_, ?_, ?_⟩
  · simp only [select_best_client, List.isEmpty_cons, hfold, hbe]
    rfl
  · exact hbc2sub _ hselbc
  · intro c hc
    rw [hcnt2 _ hselbc]
    rcases List.mem_cons.mp hc with h | h
    · subst h
      exact hle
    · exact hmin c h
  · intro hprefmem hprefmin
    have hup : b2 ≤ (collect_missing st required preferred).length := by
      rcases List.mem_cons.mp hprefmem with h | h
      · rw [h]
        exact hle
      · exact hmin _ h
    have hdn : (collect_missing st required preferred).length ≤ b2 := by
      have := hprefmin _ (hbc2sub _ hselbc)
      rw [hcnt2 _ hselbc] at this
      exact this
    have hpb : (collect_missing st required preferred).length = b2 := le_antisymm hdn hup
    have hpin : preferred ∈ bc2 := by
      rcases List.mem_cons.mp hprefmem with h | h
      · refine hcompbc ?_ preferred ?_
        · rw [← hpb, h]
        · simp [h]
      · exact hcompl preferred h hpb
    have hct : bc2.contains preferred = true := List.elem_eq_true_of_mem hpin
    rw [if_pos hct]

/-! Claim C2. -/

/-- Claim C2: for every dispatched request whose payload references at least
one cached file and with at least one live executor (round-robin choice
among them), whenever the file phase completes, the orchestrator selected an
active executor with the minimum number of referenced digests not yet synced
on it, preferring the round-robin client whenever it achieves the minimum
(else asking the choice function, which picks among the minima), the
synchronous trace is exactly one replication per missing digest of the
selected executor followed by the dispatch to it, afterwards every
referenced digest is synced on the selected executor, and every fileData
reference is rewritten to the selected executor synced uri, falling back to
its remote name. -/
theorem claim2_min_missing_scheduling (env : UploadEnv) (pick : List String → String)
    (st : FMState) (active : List String) (preferred : String)
    (refs : List (String × FileDict)) (now : Int) (out : SchedOutcome)
    (hrefs : refs ≠ [])
    (hactive : active ≠ [])
    (hpick : ∀ l, l ≠ [] → pick l ∈ l)
    (hpref : preferred ∈ active)
    (hout : handle_api_request_file_phase env pick st active preferred refs now = .ok out) :
    out.selected ∈ active ∧
    (∀ c ∈ active,
      (collect_missing st (dedupFirst (refs.map Prod.fst)) out.selected).length ≤
        (collect_missing st (dedupFirst (refs.map Prod.fst)) c).length) ∧
    ((∀ c ∈ active,
        (collect_missing st (dedupFirst (refs.map Prod.fst)) preferred).length ≤
          (collect_missing st (dedupFirst (refs.map Prod.fst)) c).length) →
      out.selected = preferred) ∧
    out.trace =
      (collect_missing st (dedupFirst (refs.map Prod.fst)) out.selected).map
        (fun sha => SchedAction.replicate out.selected sha) ++
        [SchedAction.dispatch out.selected] ∧
    (∀ r ∈ refs, is_client_synced out.fmState r.1 out.selected = true) ∧
    List.Forall₂
      (fun (p : String × FileDict) (o : FileDict) => ∃ d,
        replicaFor out.fmState p.1 out.selected = some d ∧ d.status = "synced" ∧
        ((finalUriFor d = none ∧ o = p.2) ∨
          ∃ u, finalUriFor d = some u ∧ o = { fileUri := some u }))
      refs out.rewritten := by
  have hre2 : ¬ (refs.isEmpty = true) := by
    cases refs with
    | nil => exact absurd rfl hrefs
    | cons x xs => simp
  unfold handle_api_request_file_phase at hout
  rw [if_neg hre2] at hout
  dsimp only at hout
  by_cases hmi : (collect_missing st (dedupFirst (refs.map Prod.fst)) preferred).isEmpty = true
  · rw [if_pos hmi] at hout
    have hnil : collect_missing st (dedupFirst (refs.map Prod.fst)) preferred = [] := by
      cases hcm : collect_missing st (dedupFirst (refs.map Prod.fst)) preferred with
      | nil => rfl
      | cons x xs =>
        rw [hcm] at hmi
        exact absurd hmi (by simp)
    cases hrw : rewrite_file_references st preferred refs with
    | error e =>
      simp only [hrw] at hout
      exact absurd hout (by simp)
    | ok rlist =>
      simp only [hrw] at hout
      injection hout with hout2
      subst hout2
      refine ⟨hpref, ?_, fun _ => rfl, ?_, ?_, ?_⟩
      · intro c hc
        simp [hnil]
      · show [SchedAction.dispatch preferred] =
          (collect_missing st (dedupFirst (refs.map Prod.fst)) preferred).map
            (fun sha => SchedAction.replicate preferred sha) ++
            [SchedAction.dispatch preferred]
        rw [hnil]
        rfl
      · intro r hr
        exact rewrite_ok_synced st preferred refs rlist hrw r hr
      · exact rewrite_ok_forall st preferred refs rlist hrw
  · rw [if_neg hmi] at hout
    obtain ⟨sel, heqs, hselmem, hselmin, htie⟩ :=
      select_best_client_spec st (dedupFirst (refs.map Prod.fst)) active preferred pick
        hactive hpick
    simp only [heqs] at hout
    rcases hrep : replicate_files_to_client env st sel
        (collect_missing st (dedupFirst (refs.map Prod.fst)) sel) now with ⟨st1, ex⟩
    simp only [hrep] at hout
    cases ex with
    | error e => simp at hout
    | ok u =>
      cases hrw : rewrite_file_references st1 sel refs with
      | error e =>
        simp only [hrw] at hout
        simp at hout
      | ok rlist =>
        simp only [hrw] at hout
        injection hout with hout2
        subst hout2
        refine ⟨hselmem, hselmin, fun hm => htie hpref hm, rfl, ?_, ?_⟩
        · intro r hr
          exact rewrite_ok_synced st1 sel refs rlist hrw r hr
        · exact rewrite_ok_forall st1 sel refs rlist hrw

/-- Witness for C2 at a concrete trace: two executors, the round-robin
client E1 missing the referenced file, E2 holding it synced, so E2 is
selected with nothing to replicate and the reference is rewritten to the
synced uri u2. -/
theorem claim2_witness :
    c2out.selected ∈ ["E1", "E2"] ∧
    (∀ c ∈ ["E1", "E2"],
      (collect_missing c2st (dedupFirst (c2refs.map Prod.fst)) c2out.selected).length ≤
        (collect_missing c2st (dedupFirst (c2refs.map Prod.fst)) c).length) ∧
    ((∀ c ∈ ["E1", "E2"],
        (collect_missing c2st (dedupFirst (c2refs.map Prod.fst)) "E1").length ≤
          (collect_missing c2st (dedupFirst (c2refs.map Prod.fst)) c).length) →
      c2out.selected = "E1") ∧
    c2out.trace =
      (collect_missing c2st (dedupFirst (c2refs.map Prod.fst)) c2out.selected).map
        (fun sha => SchedAction.replicate c2out.selected sha) ++
        [SchedAction.dispatch c2out.selected] ∧
    (∀ r ∈ c2refs, is_client_synced c2out.fmState r.1 c2out.selected = true) ∧
    List.Forall₂
      (fun (p : String × FileDict) (o : FileDict) => ∃ d,
        replicaFor c2out.fmState p.1 c2out.selected = some d ∧ d.status = "synced" ∧
        ((finalUriFor d = none ∧ o = p.2) ∨
          ∃ u, finalUriFor d = some u ∧ o = { fileUri := some u }))
      c2refs c2out.rewritten :=
  claim2_min_missing_scheduling c2env c2pick c2st ["E1", "E2"] "E1" c2refs 0 c2out
    (by decide) (by decide)
    (by
      intro l hl
      cases l with
      | nil => exact absurd rfl hl
      | cons x xs => exact List.mem_cons_self x xs)
    (by decide) (by decide)

end GeminiProxy
